import Mathlib

set_option maxRecDepth 8192

/-! # Verification of the `20230125-avro_three_ways` converters

A shallow embedding of the two Python programs
`python-avro/convert.py` and `python-fastavro/convert.py`: the
`json.loads(..., parse_float=str, parse_int=str)` scanner, the per-field
conversions (`dateutil.parser.parse` restricted to the ISO-8601 date-times
this example uses, `int()`, `decimal.Decimal` with `shift(2)` and
`to_integral_value(ROUND_HALF_EVEN)` under the default 28-digit context),
the two `transform_record` functions, the per-line writer loops, and the
`__main__` argument handling — together with theorems about timestamp
handling, decimal rounding, field passthrough, error classification,
record order, and the equivalence of the two variants. -/

/-- Python exception classes that the conversion can raise. -/
inductive PyErr where
  | jsonDecodeError
  | keyError
  | typeError
  | valueError
  | invalidOperation
  deriving DecidableEq, Repr

/-- A Python value as produced by `json.loads(s, parse_float=str, parse_int=str)`:
    every JSON numeric literal has already been turned into the Python `str`
    holding its literal text, so only strings, booleans, `None`, lists and dicts occur. -/
inductive PVal where
  | str (s : String)
  | bool (b : Bool)
  | null
  | list (xs : List PVal)
  | obj (fields : List (String × PVal))

/-- JSON whitespace accepted between tokens by Python's `json` scanner. -/
def isJsonWs (c : Char) : Bool :=
  c = ' ' || c = '\t' || c = '\n' || c = '\r'

def skipWs : List Char → List Char
  | [] => []
  | c :: cs => if isJsonWs c then skipWs cs else c :: cs

def isDigit (c : Char) : Bool := '0' ≤ c && c ≤ '9'

def digitVal (c : Char) : Nat := c.toNat - 48

def natOfDigits (cs : List Char) : Nat :=
  cs.foldl (fun acc c => 10 * acc + digitVal c) 0

def hexVal (c : Char) : Option Nat :=
  if isDigit c then some (digitVal c)
  else if 'a' ≤ c && c ≤ 'f' then some (c.toNat - 87)
  else if 'A' ≤ c && c ≤ 'F' then some (c.toNat - 55)
  else none

/-- Decoded character for a single-character escape `\e`. -/
def escChar (e : Char) : Option Char :=
  if e = '"' then some '"'
  else if e = '\\' then some '\\'
  else if e = '/' then some '/'
  else if e = 'b' then some '\x08'
  else if e = 'f' then some '\x0c'
  else if e = 'n' then some '\n'
  else if e = 'r' then some '\r'
  else if e = 't' then some '\t'
  else none

/-- Body of a JSON string literal, after the opening quote: returns the decoded
    characters and the input after the closing quote.  Models Python's strict
    scanner: raw control characters below 0x20 are rejected; `\uXXXX` escapes
    are decoded with `Char.ofNat` (surrogate-pair combination is outside the
    model).  The fuel argument only bounds recursion; callers pass the input
    length, which always suffices since every step consumes input. -/
def parseStringBody : Nat → List Char → Option (List Char × List Char)
  | 0, _ => none
  | fuel + 1, cs =>
    match cs with
    | [] => none
    | c :: rest =>
      if c = '"' then some ([], rest)
      else if c = '\\' then
        match rest with
        | 'u' :: h1 :: h2 :: h3 :: h4 :: r =>
          match hexVal h1, hexVal h2, hexVal h3, hexVal h4 with
          | some a, some b, some c2, some d =>
            (parseStringBody fuel r).map
              (fun p => (Char.ofNat (((a * 16 + b) * 16 + c2) * 16 + d) :: p.1, p.2))
          | _, _, _, _ => none
        | e :: r =>
          match escChar e with
          | some d => (parseStringBody fuel r).map (fun p => (d :: p.1, p.2))
          | none => none
        | [] => none
      else if c.toNat < 32 then none
      else (parseStringBody fuel rest).map (fun p => (c :: p.1, p.2))

/-- Characters that can occur in a JSON number literal. -/
def isNumChar (c : Char) : Bool :=
  isDigit c || c = '-' || c = '+' || c = '.' || c = 'e' || c = 'E'

/-- `[eE][-+]?[0-9]+`, running to the end of the token. -/
def expTail (cs : List Char) : Bool :=
  match cs with
  | '+' :: r => r ≠ [] && r.all isDigit
  | '-' :: r => r ≠ [] && r.all isDigit
  | r => r ≠ [] && r.all isDigit

/-- `(\.[0-9]+)?([eE][-+]?[0-9]+)?`, running to the end of the token. -/
def fracExpTail : List Char → Bool
  | [] => true
  | '.' :: r =>
    (r.takeWhile isDigit ≠ []) &&
      (match r.dropWhile isDigit with
       | [] => true
       | 'e' :: r2 => expTail r2
       | 'E' :: r2 => expTail r2
       | _ => false)
  | 'e' :: r => expTail r
  | 'E' :: r => expTail r
  | _ => false

/-- Unsigned part of Python json's number grammar: `(0|[1-9][0-9]*)` then `fracExpTail`. -/
def unsignedNumBody : List Char → Bool
  | [] => false
  | c :: r => if c = '0' then fracExpTail r else isDigit c && fracExpTail (r.dropWhile isDigit)

/-- Whole-token check for Python json's number grammar
    `-?(0|[1-9][0-9]*)(\.[0-9]+)?([eE][-+]?[0-9]+)?`. -/
def isJsonNumberTok : List Char → Bool
  | [] => false
  | c :: r => if c = '-' then unsignedNumBody r else unsignedNumBody (c :: r)

/-- Number token scan: take the maximal run of number characters and validate it
    against the grammar.  In any position where Python's scanner accepts a number,
    the token is followed by whitespace, `,`, `]`, `\x7d` or end of input — never by
    another number character — so this maximal-munch scan accepts exactly the
    lines Python does. -/
def parseNumberTok (cs : List Char) : Option (String × List Char) :=
  let tok := cs.takeWhile isNumChar
  if isJsonNumberTok tok then some (⟨tok⟩, cs.dropWhile isNumChar) else none

/-- One member-list step of an object: positioned at the start of a key (no
    leading whitespace).  `pv` parses one value.  Returns the members and the
    input after the closing brace. -/
def parseMembers (pv : List Char → Option (PVal × List Char)) :
    Nat → List Char → Option (List (String × PVal) × List Char)
  | 0, _ => none
  | fuel + 1, cs =>
    match cs with
    | '"' :: rest =>
      match parseStringBody rest.length rest with
      | none => none
      | some (k, rest2) =>
        match skipWs rest2 with
        | ':' :: rest3 =>
          match pv rest3 with
          | none => none
          | some (v, rest4) =>
            match skipWs rest4 with
            | ',' :: rest5 =>
              match parseMembers pv fuel (skipWs rest5) with
              | none => none
              | some (fs, rest6) => some ((⟨k⟩, v) :: fs, rest6)
            | '\x7d' :: rest5 => some ([(⟨k⟩, v)], rest5)
            | _ => none
        | _ => none
    | _ => none

/-- Element list of an array: positioned at the start of the first element. -/
def parseItems (pv : List Char → Option (PVal × List Char)) :
    Nat → List Char → Option (List PVal × List Char)
  | 0, _ => none
  | fuel + 1, cs =>
    match pv cs with
    | none => none
    | some (v, rest) =>
      match skipWs rest with
      | ',' :: rest2 =>
        match parseItems pv fuel rest2 with
        | none => none
        | some (vs, rest3) => some (v :: vs, rest3)
      | ']' :: rest2 => some ([v], rest2)
      | _ => none

/-- One JSON value, modelling Python's `json` scanner with
    `parse_float=str, parse_int=str`: numeric literals come back as the Python
    string holding their exact literal text. -/
def parseVal : Nat → List Char → Option (PVal × List Char)
  | 0, _ => none
  | fuel + 1, cs =>
    match skipWs cs with
    | [] => none
    | c :: rest =>
      if c = '"' then (parseStringBody rest.length rest).map (fun p => (PVal.str ⟨p.1⟩, p.2))
      else if c = '\x7b' then
        match skipWs rest with
        | '\x7d' :: rest2 => some (.obj [], rest2)
        | rest2 => (parseMembers (fun cs2 => parseVal fuel cs2) (fuel + 1) rest2).map
            (fun p => (PVal.obj p.1, p.2))
      else if c = '[' then
        match skipWs rest with
        | ']' :: rest2 => some (.list [], rest2)
        | rest2 => (parseItems (fun cs2 => parseVal fuel cs2) (fuel + 1) rest2).map
            (fun p => (PVal.list p.1, p.2))
      else if c = 't' then
        match rest with
        | 'r' :: 'u' :: 'e' :: rest2 => some (.bool true, rest2)
        | _ => none
      else if c = 'f' then
        match rest with
        | 'a' :: 'l' :: 's' :: 'e' :: rest2 => some (.bool false, rest2)
        | _ => none
      else if c = 'n' then
        match rest with
        | 'u' :: 'l' :: 'l' :: rest2 => some (.null, rest2)
        | _ => none
      else (parseNumberTok (c :: rest)).map (fun p => (PVal.str p.1, p.2))

/-- `json.loads(s, parse_float=str, parse_int=str)`: parse one JSON document,
    allowing surrounding whitespace and rejecting trailing data
    (`json.JSONDecodeError`). -/
def pyLoads (s : String) : Except PyErr PVal :=
  match parseVal (s.data.length + 1) s.data with
  | some (v, rest) => if skipWs rest = [] then .ok v else .error .jsonDecodeError
  | none => .error .jsonDecodeError

example : pyLoads "\x7b\"a\": 3, \"b\": 19.995, \"c\": \"x\"\x7d" =
    .ok (.obj [("a", .str "3"), ("b", .str "19.995"), ("c", .str "x")]) := rfl

example : pyLoads " [1, true, null, \"u\"] " =
    .ok (.list [.str "1", .bool true, .null, .str "u"]) := rfl

example : pyLoads "[]" = .ok (.list []) := rfl
example : pyLoads "3" = .ok (.str "3") := rfl
example : pyLoads "01" = .error .jsonDecodeError := rfl
example : pyLoads "[1,]" = .error .jsonDecodeError := rfl
example : pyLoads "\x7b\"a\":1" = .error .jsonDecodeError := rfl
example : pyLoads "1 2" = .error .jsonDecodeError := rfl
example : pyLoads "-0.5e+3" = .ok (.str "-0.5e+3") := rfl
example : pyLoads "+1" = .error .jsonDecodeError := rfl
example : pyLoads "1." = .error .jsonDecodeError := rfl
example : pyLoads ".5" = .error .jsonDecodeError := rfl
example : pyLoads "\"a\\u0041b\"" = .ok (.str "aAb") := rfl

/-! ### Python primitives used by `transform_record` -/

/-- ASCII whitespace stripped by Python's `int()`/`Decimal()` constructors
    (non-ASCII whitespace is outside the model). -/
def isPySpace (c : Char) : Bool :=
  c = ' ' || c = '\t' || c = '\n' || c = '\r' || c = '\x0b' || c = '\x0c'

def trimPyWs (cs : List Char) : List Char :=
  ((cs.dropWhile isPySpace).reverse.dropWhile isPySpace).reverse

/-- Python `int(s)` on a `str`: optional surrounding whitespace, optional sign,
    one or more ASCII digits (digit-group underscores and non-ASCII digits are
    outside the model); `None` on the inputs where `int()` raises `ValueError`. -/
def pyIntOfString (s : String) : Option Int :=
  let core : List Char → Option Int := fun ds =>
    if ds ≠ [] && ds.all isDigit then some (natOfDigits ds : Int) else none
  match trimPyWs s.data with
  | '+' :: ds => core ds
  | '-' :: ds => (core ds).map (fun n => -n)
  | ds => core ds

/-- A finite `decimal.Decimal`: sign, coefficient and exponent, exactly as
    constructed from a numeric string.  The special values `NaN`/`Infinity` are
    outside the model (the example's data never produces them). -/
structure Dec where
  sign : Bool
  coeff : Nat
  exp : Int
  deriving DecidableEq, Repr

/-- `decimal.Decimal(s)` for a numeric string: optional surrounding whitespace,
    optional sign, `digits[.digits]` or `.digits`, optional `(e|E)[sign]digits`
    exponent.  Underscore grouping and the special values are outside the model.
    `None` where the constructor raises `decimal.InvalidOperation`. -/
def pyDecimalOfString (s : String) : Option Dec :=
  let afterSign : Bool → List Char → Option Dec := fun sgn cs =>
    let intDs := cs.takeWhile isDigit
    let rest := cs.dropWhile isDigit
    let withFrac : List Char → List Char → Option Dec := fun fracDs afterFrac =>
      if intDs ++ fracDs = [] then none
      else
        let finish : Int → Dec := fun e =>
          ⟨sgn, natOfDigits (intDs ++ fracDs), e - fracDs.length⟩
        match afterFrac with
        | [] => some (finish 0)
        | e :: afterE =>
          if e = 'e' || e = 'E' then
            match afterE with
            | '+' :: ds => if ds ≠ [] && ds.all isDigit then some (finish (natOfDigits ds)) else none
            | '-' :: ds => if ds ≠ [] && ds.all isDigit then some (finish (-(natOfDigits ds : Int))) else none
            | ds => if ds ≠ [] && ds.all isDigit then some (finish (natOfDigits ds)) else none
          else none
    match rest with
    | '.' :: r => withFrac (r.takeWhile isDigit) (r.dropWhile isDigit)
    | r => if intDs = [] then none else withFrac [] r
  match trimPyWs s.data with
  | '+' :: cs => afterSign false cs
  | '-' :: cs => afterSign true cs
  | cs => afterSign false cs

/-- `Decimal.shift(2)` under the default context (precision 28): the coefficient
    is shifted left two digits inside a 28-digit window, so digits shifted past
    the window are discarded; sign and exponent are unchanged. -/
def Dec.shift2 (d : Dec) : Dec :=
  { d with coeff := d.coeff * 100 % 10 ^ 28 }

def Dec.signFactor (d : Dec) : Int := if d.sign then -1 else 1

/-- Round `n / m` (with `m > 0`) to the nearest integer, ties to even. -/
def roundHalfEvenInt (n m : Int) : Int :=
  let q := n / m
  let r := n % m
  if 2 * r < m then q else if m < 2 * r then q + 1 else if 2 ∣ q then q else q + 1

/-- Numeric value of `Decimal.to_integral_value(decimal.ROUND_HALF_EVEN)`:
    a decimal with non-negative exponent is already integral; one with negative
    exponent is rounded at the units digit, ties to even. -/
def Dec.to_integral_half_even (d : Dec) : Int :=
  match d.exp with
  | .ofNat e => d.signFactor * d.coeff * 10 ^ e
  | .negSucc e => roundHalfEvenInt (d.signFactor * d.coeff) (10 ^ (e + 1))

example : pyDecimalOfString "19.995" = some ⟨false, 19995, -3⟩ := rfl
example : (pyDecimalOfString "19.995").map (fun d => d.shift2.to_integral_half_even) = some 2000 := rfl
example : (pyDecimalOfString "19.985").map (fun d => d.shift2.to_integral_half_even) = some 1998 := rfl
example : (pyDecimalOfString "-0.5").map Dec.to_integral_half_even = some 0 := rfl
example : (pyDecimalOfString "-1.5").map Dec.to_integral_half_even = some (-2) := rfl
example : pyDecimalOfString "1." = some ⟨false, 1, 0⟩ := rfl
example : pyDecimalOfString ".25" = some ⟨false, 25, -2⟩ := rfl
example : pyDecimalOfString "1E+5" = some ⟨false, 1, 5⟩ := rfl
example : pyDecimalOfString "19.99.5" = none := rfl
example : pyIntOfString " -12 " = some (-12) := rfl
example : pyIntOfString "3" = some 3 := rfl
example : pyIntOfString "3.5" = none := rfl
example : pyIntOfString "" = none := rfl

/-- A Python `datetime.datetime`: proleptic-Gregorian calendar fields plus an
    optional fixed UTC offset in minutes (`tzinfo=None` is `none`). -/
structure PyDateTime where
  year : Nat
  month : Nat
  day : Nat
  hour : Nat
  minute : Nat
  second : Nat
  microsecond : Nat
  utcoffsetMinutes : Option Int
  deriving DecidableEq, Repr

def leapYear (y : Nat) : Bool := (y % 4 == 0 && y % 100 != 0) || y % 400 == 0

def daysInMonth (y m : Nat) : Nat :=
  if m = 2 then (if leapYear y then 29 else 28)
  else if m = 4 ∨ m = 6 ∨ m = 9 ∨ m = 11 then 30
  else 31

def daysBeforeMonth (y : Nat) : Nat → Nat
  | 0 => 0
  | m + 1 => if m = 0 then 0 else daysBeforeMonth y m + daysInMonth y m

/-- `datetime.date.toordinal()`: day number with 0001-01-01 as day 1. -/
def toOrdinalDays (y m d : Nat) : Nat :=
  365 * (y - 1) + (y - 1) / 4 - (y - 1) / 100 + (y - 1) / 400 + daysBeforeMonth y m + d

/-- Microseconds of the wall-clock reading since 0001-01-01T00:00:00,
    ignoring any timezone attached to the datetime. -/
def wallMicros (dt : PyDateTime) : Int :=
  (((toOrdinalDays dt.year dt.month dt.day - 1) * 86400 + dt.hour * 3600 +
      dt.minute * 60 + dt.second) * 1000000 + dt.microsecond : Nat)

/-- The absolute instant a datetime denotes, as microseconds since
    0001-01-01T00:00:00 UTC; a naive datetime is read as UTC. -/
def instantMicros (dt : PyDateTime) : Int :=
  wallMicros dt - dt.utcoffsetMinutes.getD 0 * 60000000

/-- `.replace(tzinfo=timezone.utc)`: attach UTC, keeping every clock field. -/
def PyDateTime.replaceTzinfoUtc (dt : PyDateTime) : PyDateTime :=
  { dt with utcoffsetMinutes := some 0 }

def tzSignVal (c : Char) : Option Int :=
  if c = '+' then some 1 else if c = '-' then some (-1) else none

/-- Trailing timezone designator: empty (naive), `Z`, `±HH`, `±HHMM` or `±HH:MM`. -/
def parseTzTail : List Char → Option (Option Int)
  | [] => some none
  | ['Z'] => some (some 0)
  | [c, a, b] =>
    match tzSignVal c with
    | some sgn =>
      if [a, b].all isDigit && natOfDigits [a, b] ≤ 23 then
        some (some (sgn * (natOfDigits [a, b] * 60)))
      else none
    | none => none
  | [c, a, b, x, y] =>
    match tzSignVal c with
    | some sgn =>
      if [a, b, x, y].all isDigit && natOfDigits [a, b] ≤ 23 && natOfDigits [x, y] ≤ 59 then
        some (some (sgn * (natOfDigits [a, b] * 60 + natOfDigits [x, y])))
      else none
    | none => none
  | [c, a, b, ':', x, y] =>
    match tzSignVal c with
    | some sgn =>
      if [a, b, x, y].all isDigit && natOfDigits [a, b] ≤ 23 && natOfDigits [x, y] ≤ 59 then
        some (some (sgn * (natOfDigits [a, b] * 60 + natOfDigits [x, y])))
      else none
    | none => none
  | _ => none

/-- Optional fractional seconds (1–6 digits) followed by the timezone tail. -/
def parseFracThenTz : List Char → Option (Nat × Option Int)
  | '.' :: rest =>
    let ds := rest.takeWhile isDigit
    if 1 ≤ ds.length && ds.length ≤ 6 then
      (parseTzTail (rest.dropWhile isDigit)).map
        (fun tz => (natOfDigits ds * 10 ^ (6 - ds.length), tz))
    else none
  | rest => (parseTzTail rest).map (fun tz => (0, tz))

/-- Modelled behaviour of `dateutil.parser.parse` restricted to the ISO-8601
    date-times this example's data uses:
    `YYYY-MM-DD(T| )HH:MM:SS[.ffffff][Z|±HH[:MM]|±HHMM]`, with calendar-valid
    fields.  The many other layouts dateutil accepts are outside the model;
    on them (and on invalid fields) the model returns `none`, standing for
    dateutil's `ParserError`, a subclass of `ValueError`. -/
def dateutilParse (s : String) : Option PyDateTime :=
  match s.data with
  | y1 :: y2 :: y3 :: y4 :: '-' :: a1 :: a2 :: '-' :: b1 :: b2 :: sep ::
      h1 :: h2 :: ':' :: m1 :: m2 :: ':' :: c1 :: c2 :: rest =>
    if (sep = 'T' || sep = ' ') &&
        [y1, y2, y3, y4, a1, a2, b1, b2, h1, h2, m1, m2, c1, c2].all isDigit then
      match parseFracThenTz rest with
      | some (usec, tz) =>
        let year := natOfDigits [y1, y2, y3, y4]
        let month := natOfDigits [a1, a2]
        let day := natOfDigits [b1, b2]
        let hour := natOfDigits [h1, h2]
        let minute := natOfDigits [m1, m2]
        let second := natOfDigits [c1, c2]
        if 1 ≤ year ∧ 1 ≤ month ∧ month ≤ 12 ∧ 1 ≤ day ∧ day ≤ daysInMonth year month ∧
            hour ≤ 23 ∧ minute ≤ 59 ∧ second ≤ 59 then
          some ⟨year, month, day, hour, minute, second, usec, tz⟩
        else none
      | none => none
    else none
  | _ => none

example : dateutilParse "2023-01-25T10:00:00-05:00" =
    some ⟨2023, 1, 25, 10, 0, 0, 0, some (-300)⟩ := rfl
example : dateutilParse "2023-01-25T15:00:00Z" =
    some ⟨2023, 1, 25, 15, 0, 0, 0, some 0⟩ := rfl
example : dateutilParse "2023-01-25T09:29:13" =
    some ⟨2023, 1, 25, 9, 29, 13, 0, none⟩ := rfl
example : dateutilParse "2023-01-25T09:29:13.123" =
    some ⟨2023, 1, 25, 9, 29, 13, 123000, none⟩ := rfl
example : dateutilParse "2023-02-29T00:00:00" = none := rfl
example : dateutilParse "2024-02-29T00:00:00" =
    some ⟨2024, 2, 29, 0, 0, 0, 0, none⟩ := rfl
example : dateutilParse "not-a-date" = none := rfl
example : instantMicros ⟨2023, 1, 25, 10, 0, 0, 0, some (-300)⟩ =
    instantMicros ⟨2023, 1, 25, 15, 0, 0, 0, some 0⟩ := rfl

/-! ### Dict access and per-field conversions -/

/-- Lookup in a Python dict built from a JSON object's member list: a duplicated
    key keeps the value of its last occurrence. -/
def lookupLast (fields : List (String × PVal)) (k : String) : Option PVal :=
  match fields with
  | [] => none
  | (k2, v) :: rest =>
    match lookupLast rest k with
    | some r => some r
    | none => if k2 = k then some v else none

/-- Python subscription `data[k]`: `KeyError` on a dict without the key,
    `TypeError` on any non-dict value `json.loads` can produce here. -/
def dictGet (v : PVal) (k : String) : Except PyErr PVal :=
  match v with
  | .obj fields =>
    match lookupLast fields k with
    | some x => .ok x
    | none => .error .keyError
  | _ => .error .typeError

/-- Python `int(x)` on a value decoded by this `json.loads` call: strings are
    parsed (`ValueError` if malformed), booleans are the ints 0/1, and `None`,
    lists and dicts raise `TypeError`. -/
def pyIntOfValue : PVal → Except PyErr Int
  | .str s =>
    match pyIntOfString s with
    | some n => .ok n
    | none => .error .valueError
  | .bool b => .ok (if b then 1 else 0)
  | _ => .error .typeError

/-- Python `decimal.Decimal(x)` on a value decoded by this `json.loads` call:
    strings are parsed (`decimal.InvalidOperation` if malformed), booleans are
    ints 0/1, and `None`, lists and dicts raise `TypeError`. -/
def pyDecimalOfValue : PVal → Except PyErr Dec
  | .str s =>
    match pyDecimalOfString s with
    | some d => .ok d
    | none => .error .invalidOperation
  | .bool b => .ok ⟨false, if b then 1 else 0, 0⟩
  | _ => .error .typeError

/-- `dateutil.parser.parse(x)`: a string is parsed (`ParserError`, a
    `ValueError`, if not a recognized date-time); any other value here raises
    `TypeError`. -/
def dateutilParseValue : PVal → Except PyErr PyDateTime
  | .str s =>
    match dateutilParse s with
    | some dt => .ok dt
    | none => .error .valueError
  | _ => .error .typeError

/-! ### The python-avro variant (`20230125-avro_three_ways/python-avro/convert.py`) -/

namespace PyAvro

/-- The record dict built by the python-avro `transform_record`: `totalValue`
    is the integral `Decimal` produced by
    `Decimal(...).shift(2).to_integral_value(decimal.ROUND_HALF_EVEN)`,
    represented by its integer numeric value. -/
structure OutRecord where
  eventType : PVal
  eventId : PVal
  timestamp : PyDateTime
  userId : PVal
  itemsInCart : Int
  totalValue : Int

/-- `transform_record` of `python-avro/convert.py`, field expressions evaluated
    in the source's dict-literal order, the first exception propagating. -/
def transform_record (json_str : String) : Except PyErr OutRecord :=
  match pyLoads json_str with
  | .error e => .error e
  | .ok data =>
    match dictGet data "eventType" with
    | .error e => .error e
    | .ok eventType =>
      match dictGet data "eventId" with
      | .error e => .error e
      | .ok eventId =>
        match dictGet data "timestamp" with
        | .error e => .error e
        | .ok tsRaw =>
          match dateutilParseValue tsRaw with
          | .error e => .error e
          | .ok ts =>
            match dictGet data "userId" with
            | .error e => .error e
            | .ok userId =>
              match dictGet data "itemsInCart" with
              | .error e => .error e
              | .ok icRaw =>
                match pyIntOfValue icRaw with
                | .error e => .error e
                | .ok itemsInCart =>
                  match dictGet data "totalValue" with
                  | .error e => .error e
                  | .ok tvRaw =>
                    match pyDecimalOfValue tvRaw with
                    | .error e => .error e
                    | .ok tv =>
                      .ok ⟨eventType, eventId, ts.replaceTzinfoUtc, userId,
                        itemsInCart, tv.shift2.to_integral_half_even⟩

end PyAvro

/-! ### The python-fastavro variant (`20230125-avro_three_ways/python-fastavro/convert.py`) -/

namespace FastAvro

/-- The record dict built by the python-fastavro `transform_record`:
    `totalValue` is the `Decimal` itself. -/
structure OutRecord where
  eventType : PVal
  eventId : PVal
  timestamp : PyDateTime
  userId : PVal
  itemsInCart : Int
  totalValue : Dec

/-- `transform_record` of `python-fastavro/convert.py`. -/
def transform_record (json_str : String) : Except PyErr OutRecord :=
  match pyLoads json_str with
  | .error e => .error e
  | .ok data =>
    match dictGet data "eventType" with
    | .error e => .error e
    | .ok eventType =>
      match dictGet data "eventId" with
      | .error e => .error e
      | .ok eventId =>
        match dictGet data "timestamp" with
        | .error e => .error e
        | .ok tsRaw =>
          match dateutilParseValue tsRaw with
          | .error e => .error e
          | .ok ts =>
            match dictGet data "userId" with
            | .error e => .error e
            | .ok userId =>
              match dictGet data "itemsInCart" with
              | .error e => .error e
              | .ok icRaw =>
                match pyIntOfValue icRaw with
                | .error e => .error e
                | .ok itemsInCart =>
                  match dictGet data "totalValue" with
                  | .error e => .error e
                  | .ok tvRaw =>
                    match pyDecimalOfValue tvRaw with
                    | .error e => .error e
                    | .ok tv =>
                      .ok ⟨eventType, eventId, ts.replaceTzinfoUtc, userId,
                        itemsInCart, tv⟩

end FastAvro

example :
    PyAvro.transform_record
      "\x7b\"eventType\": \"checkout\", \"eventId\": \"e-1\", \"timestamp\": \"2023-01-25T09:29:13\", \"userId\": \"u-1\", \"itemsInCart\": 3, \"totalValue\": 19.995\x7d" =
    .ok ⟨.str "checkout", .str "e-1", ⟨2023, 1, 25, 9, 29, 13, 0, some 0⟩,
      .str "u-1", 3, 2000⟩ := rfl

example :
    FastAvro.transform_record
      "\x7b\"eventType\": \"checkout\", \"eventId\": \"e-1\", \"timestamp\": \"2023-01-25T09:29:13\", \"userId\": \"u-1\", \"itemsInCart\": 3, \"totalValue\": 19.995\x7d" =
    .ok ⟨.str "checkout", .str "e-1", ⟨2023, 1, 25, 9, 29, 13, 0, some 0⟩,
      .str "u-1", 3, ⟨false, 19995, -3⟩⟩ := rfl

/-! ### Reading the input file line by line -/

/-- Universal-newline translation performed by reading a text-mode file:
    `\r\n` and lone `\r` both become `\n`. -/
def translateNewlines : List Char → List Char
  | [] => []
  | '\r' :: '\n' :: rest => '\n' :: translateNewlines rest
  | '\r' :: rest => '\n' :: translateNewlines rest
  | c :: rest => c :: translateNewlines rest

def splitLinesAux : List Char → List Char → List String
  | acc, [] => if acc = [] then [] else [⟨acc.reverse⟩]
  | acc, '\n' :: rest => ⟨('\n' :: acc).reverse⟩ :: splitLinesAux [] rest
  | acc, c :: rest => splitLinesAux (c :: acc) rest

/-- Python's `f.readlines()` on a text-mode file: split after each newline,
    keeping the terminator; a non-empty unterminated final chunk is a line. -/
def pyReadlines (s : String) : List String :=
  splitLinesAux [] (translateNewlines s.data)

example : pyReadlines "a\nbc\r\nd" = ["a\n", "bc\n", "d"] := rfl
example : pyReadlines "" = [] := rfl

/-- One externally visible action of a `__main__` block. -/
inductive MainStep where
  | printUsageToStderr
  | exitWithStatus (code : Nat)
  | openForRead (path : String)
  | openForWrite (path : String)
  | writeRecords
  deriving DecidableEq

namespace PyAvro

/-- The `DataFileWriter` loop of python-avro's `__main__`: `acc` holds records
    already appended; each line is transformed and appended in order, the first
    exception aborting the loop. -/
def writeLoop (acc : List OutRecord) : List String → Except PyErr (List OutRecord)
  | [] => .ok acc
  | line :: rest =>
    match transform_record line with
    | .error e => .error e
    | .ok r => writeLoop (acc ++ [r]) rest

/-- The sequence of records handed to the Avro writer for a whole input file. -/
def convertFile (content : String) : Except PyErr (List OutRecord) :=
  writeLoop [] (pyReadlines content)

/-- python-avro `__main__` as a trace of external actions; `argv` is the full
    `sys.argv`, program name included.  With exactly 3 positional arguments it
    opens the schema for reading, the avro output for writing (inside
    `DataFileWriter(open(avro_file, "wb"), ...)`), the json input for reading,
    then writes records; otherwise it prints the usage docstring to stderr and
    exits with status 1. -/
def mainSteps (argv : List String) : List MainStep :=
  if argv.length ≠ 4 then [.printUsageToStderr, .exitWithStatus 1]
  else [.openForRead (argv.getD 1 ""), .openForWrite (argv.getD 3 ""),
        .openForRead (argv.getD 2 ""), .writeRecords]

end PyAvro

namespace FastAvro

/-- The list comprehension `[transform_record(line) for line in f.readlines()]`:
    lines transformed in order, the first exception aborting the whole batch. -/
def transformAll : List String → Except PyErr (List OutRecord)
  | [] => .ok []
  | line :: rest =>
    match transform_record line with
    | .error e => .error e
    | .ok r =>
      match transformAll rest with
      | .error e => .error e
      | .ok rs => .ok (r :: rs)

/-- The batch of records handed to `fastavro.writer` for a whole input file. -/
def convertFile (content : String) : Except PyErr (List OutRecord) :=
  transformAll (pyReadlines content)

/-- python-fastavro `__main__` as a trace of external actions: schema read,
    json read, avro opened for writing, records written; or the usage/exit-1
    path when the argument count is wrong. -/
def mainSteps (argv : List String) : List MainStep :=
  if argv.length ≠ 4 then [.printUsageToStderr, .exitWithStatus 1]
  else [.openForRead (argv.getD 1 ""), .openForRead (argv.getD 2 ""),
        .openForWrite (argv.getD 3 ""), .writeRecords]

end FastAvro

/-! ### Specification-side definitions (phrased from the spec, for comparison) -/

/-- Exact numeric value of a finite decimal, as a rational. -/
def decValue (d : Dec) : ℚ := d.signFactor * d.coeff * (10 : ℚ) ^ d.exp

/-- Round a rational to the nearest integer, ties to even. -/
def roundHalfEvenQ (q : ℚ) : Int :=
  if q - ⌊q⌋ < 1 / 2 then ⌊q⌋
  else if 1 / 2 < q - ⌊q⌋ then ⌊q⌋ + 1
  else if 2 ∣ ⌊q⌋ then ⌊q⌋ else ⌊q⌋ + 1

/-- The timestamp field value parses: it is a string our dateutil model accepts. -/
def tsFieldOk : Option PVal → Bool
  | some (.str s) => (dateutilParse s).isSome
  | _ => false

/-- The itemsInCart field value survives `int()`: a string parsing as an
    integer, or a boolean (Python's `int` accepts `bool`). -/
def intFieldOk : Option PVal → Bool
  | some (.str s) => (pyIntOfString s).isSome
  | some (.bool _) => true
  | _ => false

/-- The totalValue field value survives `Decimal()`: a string parsing as a
    decimal numeral, or a boolean. -/
def decFieldOk : Option PVal → Bool
  | some (.str s) => (pyDecimalOfString s).isSome
  | some (.bool _) => true
  | _ => false

/-- All conditions for `transform_record` to succeed on a decoded object. -/
def goodFields (fields : List (String × PVal)) : Bool :=
  (lookupLast fields "eventType").isSome &&
  (lookupLast fields "eventId").isSome &&
  (lookupLast fields "userId").isSome &&
  tsFieldOk (lookupLast fields "timestamp") &&
  intFieldOk (lookupLast fields "itemsInCart") &&
  decFieldOk (lookupLast fields "totalValue")

/-- All conditions for `transform_record` to succeed on an input line. -/
def goodLine (line : String) : Bool :=
  match pyLoads line with
  | .ok (.obj fields) => goodFields fields
  | _ => false

/-- Claim condition "the input line is not well-formed JSON". -/
def condMalformedJson (line : String) : Bool :=
  match pyLoads line with
  | .error _ => true
  | .ok _ => false

/-- Claim condition "one of the six required keys is missing from the input
    object" (it presupposes the line decodes to an object). -/
def condMissingKey (line : String) : Bool :=
  match pyLoads line with
  | .ok (.obj fields) =>
    !((lookupLast fields "eventType").isSome &&
      (lookupLast fields "eventId").isSome &&
      (lookupLast fields "timestamp").isSome &&
      (lookupLast fields "userId").isSome &&
      (lookupLast fields "itemsInCart").isSome &&
      (lookupLast fields "totalValue").isSome)
  | _ => false

/-- Claim condition "the timestamp or a numeric field is malformed": the field
    is present in the input object but its value fails its conversion. -/
def condMalformedField (line : String) : Bool :=
  match pyLoads line with
  | .ok (.obj fields) =>
    (match lookupLast fields "timestamp" with
     | some v => !tsFieldOk (some v)
     | none => false) ||
    (match lookupLast fields "itemsInCart" with
     | some v => !intFieldOk (some v)
     | none => false) ||
    (match lookupLast fields "totalValue" with
     | some v => !decFieldOk (some v)
     | none => false)
  | _ => false

/-! ### Helper lemmas -/

theorem dictGet_obj (fields : List (String × PVal)) (k : String) :
    dictGet (.obj fields) k =
      match lookupLast fields k with
      | some x => .ok x
      | none => .error .keyError := rfl

/-- Anatomy of a successful python-avro `transform_record`. -/
theorem PyAvro.pyavro_transform_ok_elim (line : String) (r : PyAvro.OutRecord)
    (h : PyAvro.transform_record line = .ok r) :
    ∃ v, pyLoads line = .ok v ∧
      dictGet v "eventType" = .ok r.eventType ∧
      dictGet v "eventId" = .ok r.eventId ∧
      (∃ tsRaw ts, dictGet v "timestamp" = .ok tsRaw ∧
        dateutilParseValue tsRaw = .ok ts ∧ r.timestamp = ts.replaceTzinfoUtc) ∧
      dictGet v "userId" = .ok r.userId ∧
      (∃ icRaw, dictGet v "itemsInCart" = .ok icRaw ∧
        pyIntOfValue icRaw = .ok r.itemsInCart) ∧
      (∃ tvRaw d, dictGet v "totalValue" = .ok tvRaw ∧
        pyDecimalOfValue tvRaw = .ok d ∧
        r.totalValue = d.shift2.to_integral_half_even) := by
  unfold PyAvro.transform_record at h
  repeat' split at h
  all_goals cases h
  rename_i x9 data hload x8 et hET x7 eid hEID x6 tsRaw hTS x5 ts hParse x4 uid hUID
    x3 icRaw hIC x2 n hInt x1 tvRaw hTV x0 d hDec
  exact ⟨data, hload, hET, hEID, ⟨tsRaw, ts, hTS, hParse, rfl⟩, hUID, ⟨icRaw, hIC, hInt⟩,
    ⟨tvRaw, d, hTV, hDec, rfl⟩⟩

/-- Anatomy of a successful python-fastavro `transform_record`. -/
theorem FastAvro.fastavro_transform_ok_elim (line : String) (r : FastAvro.OutRecord)
    (h : FastAvro.transform_record line = .ok r) :
    ∃ v, pyLoads line = .ok v ∧
      dictGet v "eventType" = .ok r.eventType ∧
      dictGet v "eventId" = .ok r.eventId ∧
      (∃ tsRaw ts, dictGet v "timestamp" = .ok tsRaw ∧
        dateutilParseValue tsRaw = .ok ts ∧ r.timestamp = ts.replaceTzinfoUtc) ∧
      dictGet v "userId" = .ok r.userId ∧
      (∃ icRaw, dictGet v "itemsInCart" = .ok icRaw ∧
        pyIntOfValue icRaw = .ok r.itemsInCart) ∧
      (∃ tvRaw, dictGet v "totalValue" = .ok tvRaw ∧
        pyDecimalOfValue tvRaw = .ok r.totalValue) := by
  unfold FastAvro.transform_record at h
  repeat' split at h
  all_goals cases h
  rename_i x9 data hload x8 et hET x7 eid hEID x6 tsRaw hTS x5 ts hParse x4 uid hUID
    x3 icRaw hIC x2 n hInt x1 tvRaw hTV x0 d hDec
  exact ⟨data, hload, hET, hEID, ⟨tsRaw, ts, hTS, hParse, rfl⟩, hUID, ⟨icRaw, hIC, hInt⟩,
    ⟨tvRaw, hTV, hDec⟩⟩

/-- A full event line with the given timestamp text and the given JSON texts
    for the two numeric fields (`ic` and `tv` are spliced in verbatim, so they
    can be unquoted numerals or quoted strings). -/
def lineCheckout (ts ic tv : String) : String :=
  "\x7b\"eventType\": \"checkout\", \"eventId\": \"e-1\", \"timestamp\": \"" ++ ts ++
    "\", \"userId\": \"u-1\", \"itemsInCart\": " ++ ic ++ ", \"totalValue\": " ++ tv ++ "\x7d"

example :
    PyAvro.transform_record (lineCheckout "2023-01-25T09:29:13" "3" "\"19.995\"") =
    .ok ⟨.str "checkout", .str "e-1", ⟨2023, 1, 25, 9, 29, 13, 0, some 0⟩,
      .str "u-1", 3, 2000⟩ := rfl

theorem dictGet_eq_of_lookup {fields : List (String × PVal)} {k : String} {x : PVal}
    (h : lookupLast fields k = some x) : dictGet (.obj fields) k = .ok x := by
  simp [dictGet, h]

/-- C2: the scaled-integer variant rounds half-to-even at the cents boundary:
    totalValue "19.995" gives 2000 and "19.985" gives 1998 (not 1999). -/
theorem C2_round_half_even_cents :
    (PyAvro.transform_record (lineCheckout "2023-01-25T09:29:13" "3" "\"19.995\"")).map
        PyAvro.OutRecord.totalValue = .ok 2000 ∧
    (PyAvro.transform_record (lineCheckout "2023-01-25T09:29:13" "3" "\"19.985\"")).map
        PyAvro.OutRecord.totalValue = .ok 1998 ∧
    (1998 : Int) ≠ 1999 :=
  ⟨rfl, rfl, by decide⟩

/-- C8: with an argument count other than exactly three positional arguments
    (`len(sys.argv) != 4`), both programs print the usage docstring to stderr
    and exit with status 1, opening no file and writing no output. -/
theorem C8_usage_and_exit (argv : List String) (h : argv.length ≠ 4) :
    PyAvro.mainSteps argv = [.printUsageToStderr, .exitWithStatus 1] ∧
    FastAvro.mainSteps argv = [.printUsageToStderr, .exitWithStatus 1] ∧
    (∀ p, MainStep.openForRead p ∉ PyAvro.mainSteps argv ∧
      MainStep.openForWrite p ∉ PyAvro.mainSteps argv ∧
      MainStep.openForRead p ∉ FastAvro.mainSteps argv ∧
      MainStep.openForWrite p ∉ FastAvro.mainSteps argv) ∧
    MainStep.writeRecords ∉ PyAvro.mainSteps argv ∧
    MainStep.writeRecords ∉ FastAvro.mainSteps argv := by
  simp [PyAvro.mainSteps, FastAvro.mainSteps, h]

theorem C8_usage_and_exit_witness :
    (["convert.py", "schema.avsc"] : List String).length ≠ 4 ∧
    PyAvro.mainSteps ["convert.py", "schema.avsc"] =
      [.printUsageToStderr, .exitWithStatus 1] ∧
    FastAvro.mainSteps ["convert.py", "schema.avsc"] =
      [.printUsageToStderr, .exitWithStatus 1] :=
  ⟨by decide,
    (C8_usage_and_exit ["convert.py", "schema.avsc"] (by decide)).1,
    (C8_usage_and_exit ["convert.py", "schema.avsc"] (by decide)).2.1⟩

/-- C4: whenever the input object carries string values for eventType, eventId
    and userId, a successful transform (either variant) returns those exact
    strings unchanged. -/
theorem C4_strings_passed_through (line : String) (fields : List (String × PVal))
    (s1 s2 s3 : String)
    (hload : pyLoads line = .ok (.obj fields))
    (h1 : lookupLast fields "eventType" = some (.str s1))
    (h2 : lookupLast fields "eventId" = some (.str s2))
    (h3 : lookupLast fields "userId" = some (.str s3)) :
    (∀ r, PyAvro.transform_record line = .ok r →
      r.eventType = .str s1 ∧ r.eventId = .str s2 ∧ r.userId = .str s3) ∧
    (∀ r, FastAvro.transform_record line = .ok r →
      r.eventType = .str s1 ∧ r.eventId = .str s2 ∧ r.userId = .str s3) := by
  constructor
  · intro r hr
    obtain ⟨v, hv, hET, hEID, _, hUID, _, _⟩ := PyAvro.pyavro_transform_ok_elim line r hr
    rw [hload] at hv
    cases hv
    exact ⟨(Except.ok.inj ((dictGet_eq_of_lookup h1).symm.trans hET)).symm,
      (Except.ok.inj ((dictGet_eq_of_lookup h2).symm.trans hEID)).symm,
      (Except.ok.inj ((dictGet_eq_of_lookup h3).symm.trans hUID)).symm⟩
  · intro r hr
    obtain ⟨v, hv, hET, hEID, _, hUID, _, _⟩ := FastAvro.fastavro_transform_ok_elim line r hr
    rw [hload] at hv
    cases hv
    exact ⟨(Except.ok.inj ((dictGet_eq_of_lookup h1).symm.trans hET)).symm,
      (Except.ok.inj ((dictGet_eq_of_lookup h2).symm.trans hEID)).symm,
      (Except.ok.inj ((dictGet_eq_of_lookup h3).symm.trans hUID)).symm⟩

theorem C4_strings_passed_through_witness :
    (⟨.str "checkout", .str "e-1", ⟨2023, 1, 25, 9, 29, 13, 0, some 0⟩,
        .str "u-1", 3, 2000⟩ : PyAvro.OutRecord).eventType = .str "checkout" ∧
    (⟨.str "checkout", .str "e-1", ⟨2023, 1, 25, 9, 29, 13, 0, some 0⟩,
        .str "u-1", 3, 2000⟩ : PyAvro.OutRecord).eventId = .str "e-1" ∧
    (⟨.str "checkout", .str "e-1", ⟨2023, 1, 25, 9, 29, 13, 0, some 0⟩,
        .str "u-1", 3, 2000⟩ : PyAvro.OutRecord).userId = .str "u-1" :=
  (C4_strings_passed_through (lineCheckout "2023-01-25T09:29:13" "3" "\"19.995\"")
      [("eventType", .str "checkout"), ("eventId", .str "e-1"),
       ("timestamp", .str "2023-01-25T09:29:13"), ("userId", .str "u-1"),
       ("itemsInCart", .str "3"), ("totalValue", .str "19.995")]
      "checkout" "e-1" "u-1" rfl rfl rfl rfl).1 _ rfl

/-- C5: when the input object's itemsInCart is a string, a successful
    transform (either variant) returns exactly the integer `int()` parses from
    it, and if the string is not a valid integer, `transform_record` fails. -/
theorem C5_itemsInCart_int (line : String) (fields : List (String × PVal)) (s : String)
    (hload : pyLoads line = .ok (.obj fields))
    (hlook : lookupLast fields "itemsInCart" = some (.str s)) :
    (∀ r, PyAvro.transform_record line = .ok r → pyIntOfString s = some r.itemsInCart) ∧
    (∀ r, FastAvro.transform_record line = .ok r → pyIntOfString s = some r.itemsInCart) ∧
    (pyIntOfString s = none →
      (∀ r, PyAvro.transform_record line ≠ .ok r) ∧
      (∀ r, FastAvro.transform_record line ≠ .ok r)) := by
  refine ⟨?_, ?_, ?_⟩
  · intro r hr
    obtain ⟨v, hv, -, -, -, -, ⟨icRaw, hIC, hInt⟩, -⟩ := PyAvro.pyavro_transform_ok_elim line r hr
    rw [hload] at hv
    cases hv
    obtain rfl : PVal.str s = icRaw :=
      Except.ok.inj ((dictGet_eq_of_lookup hlook).symm.trans hIC)
    cases hp : pyIntOfString s with
    | none => rw [pyIntOfValue, hp] at hInt; cases hInt
    | some n => rw [pyIntOfValue, hp] at hInt; rw [Except.ok.inj hInt]
  · intro r hr
    obtain ⟨v, hv, -, -, -, -, ⟨icRaw, hIC, hInt⟩, -⟩ := FastAvro.fastavro_transform_ok_elim line r hr
    rw [hload] at hv
    cases hv
    obtain rfl : PVal.str s = icRaw :=
      Except.ok.inj ((dictGet_eq_of_lookup hlook).symm.trans hIC)
    cases hp : pyIntOfString s with
    | none => rw [pyIntOfValue, hp] at hInt; cases hInt
    | some n => rw [pyIntOfValue, hp] at hInt; rw [Except.ok.inj hInt]
  · intro hnone
    constructor
    · intro r hr
      obtain ⟨v, hv, -, -, -, -, ⟨icRaw, hIC, hInt⟩, -⟩ := PyAvro.pyavro_transform_ok_elim line r hr
      rw [hload] at hv
      cases hv
      obtain rfl : PVal.str s = icRaw :=
        Except.ok.inj ((dictGet_eq_of_lookup hlook).symm.trans hIC)
      rw [pyIntOfValue, hnone] at hInt
      cases hInt
    · intro r hr
      obtain ⟨v, hv, -, -, -, -, ⟨icRaw, hIC, hInt⟩, -⟩ := FastAvro.fastavro_transform_ok_elim line r hr
      rw [hload] at hv
      cases hv
      obtain rfl : PVal.str s = icRaw :=
        Except.ok.inj ((dictGet_eq_of_lookup hlook).symm.trans hIC)
      rw [pyIntOfValue, hnone] at hInt
      cases hInt

theorem C5_itemsInCart_int_witness : pyIntOfString "3" = some 3 :=
  (C5_itemsInCart_int (lineCheckout "2023-01-25T09:29:13" "\"3\"" "\"19.995\"")
      [("eventType", .str "checkout"), ("eventId", .str "e-1"),
       ("timestamp", .str "2023-01-25T09:29:13"), ("userId", .str "u-1"),
       ("itemsInCart", .str "3"), ("totalValue", .str "19.995")]
      "3" rfl rfl).1
    ⟨.str "checkout", .str "e-1", ⟨2023, 1, 25, 9, 29, 13, 0, some 0⟩, .str "u-1", 3, 2000⟩
    rfl

/-- C1 counterexample: on an input line whose timestamp is
    "2023-01-25T10:00:00-05:00", the produced timestamp's instant is
    2023-01-25T10:00:00 UTC — the offset is discarded — and not the instant of
    "2023-01-25T15:00:00Z" that converting to UTC (as the true instant of the
    input, also computed below) would give. -/
theorem C1_not_converted_counterexample :
    (PyAvro.transform_record (lineCheckout "2023-01-25T10:00:00-05:00" "3" "19.995")).map
        (fun r => instantMicros r.timestamp) = .ok 63810237600000000 ∧
    (dateutilParse "2023-01-25T15:00:00Z").map instantMicros = some 63810255600000000 ∧
    (dateutilParse "2023-01-25T10:00:00-05:00").map instantMicros = some 63810255600000000 ∧
    (63810237600000000 : Int) ≠ 63810255600000000 :=
  ⟨rfl, rfl, rfl, by decide⟩

/-- C1 (amended): `transform_record` tags the parsed wall-clock value as UTC in
    every case, discarding any timezone offset the timestamp carried
    (`.replace(tzinfo=timezone.utc)` instead of a conversion): the output
    timestamp is the parsed datetime with tzinfo replaced by UTC, and its
    instant is its wall-clock reading taken as UTC.  In particular, an input
    without timezone information keeps the same clock value, tagged UTC. -/
theorem C1_wall_clock_tagged_utc (line : String) :
    (∀ r, PyAvro.transform_record line = .ok r →
      r.timestamp.utcoffsetMinutes = some 0 ∧
      instantMicros r.timestamp = wallMicros r.timestamp ∧
      ∀ fields s dt, pyLoads line = .ok (.obj fields) →
        lookupLast fields "timestamp" = some (.str s) →
        dateutilParse s = some dt →
        r.timestamp = dt.replaceTzinfoUtc ∧ wallMicros r.timestamp = wallMicros dt) ∧
    (∀ r, FastAvro.transform_record line = .ok r →
      r.timestamp.utcoffsetMinutes = some 0 ∧
      instantMicros r.timestamp = wallMicros r.timestamp ∧
      ∀ fields s dt, pyLoads line = .ok (.obj fields) →
        lookupLast fields "timestamp" = some (.str s) →
        dateutilParse s = some dt →
        r.timestamp = dt.replaceTzinfoUtc ∧ wallMicros r.timestamp = wallMicros dt) := by
  constructor
  · intro r hr
    obtain ⟨v, hv, -, -, ⟨tsRaw, ts, hTS, hParse, hrts⟩, -, -, -⟩ :=
      PyAvro.pyavro_transform_ok_elim line r hr
    refine ⟨by rw [hrts]; rfl, by rw [hrts]; simp [instantMicros, PyDateTime.replaceTzinfoUtc], ?_⟩
    intro fields s dt hload hlook hdt
    rw [hload] at hv
    cases hv
    obtain rfl : PVal.str s = tsRaw :=
      Except.ok.inj ((dictGet_eq_of_lookup hlook).symm.trans hTS)
    rw [dateutilParseValue, hdt] at hParse
    obtain rfl : dt = ts := Except.ok.inj hParse
    exact ⟨hrts, by rw [hrts]; rfl⟩
  · intro r hr
    obtain ⟨v, hv, -, -, ⟨tsRaw, ts, hTS, hParse, hrts⟩, -, -, -⟩ :=
      FastAvro.fastavro_transform_ok_elim line r hr
    refine ⟨by rw [hrts]; rfl, by rw [hrts]; simp [instantMicros, PyDateTime.replaceTzinfoUtc], ?_⟩
    intro fields s dt hload hlook hdt
    rw [hload] at hv
    cases hv
    obtain rfl : PVal.str s = tsRaw :=
      Except.ok.inj ((dictGet_eq_of_lookup hlook).symm.trans hTS)
    rw [dateutilParseValue, hdt] at hParse
    obtain rfl : dt = ts := Except.ok.inj hParse
    exact ⟨hrts, by rw [hrts]; rfl⟩

theorem C1_wall_clock_tagged_utc_witness :
    (⟨.str "checkout", .str "e-1", ⟨2023, 1, 25, 9, 29, 13, 0, some 0⟩,
        .str "u-1", 3, 2000⟩ : PyAvro.OutRecord).timestamp.utcoffsetMinutes = some 0 ∧
    (⟨.str "checkout", .str "e-1", ⟨2023, 1, 25, 9, 29, 13, 0, some 0⟩,
        .str "u-1", 3, 2000⟩ : PyAvro.OutRecord).timestamp =
      (⟨2023, 1, 25, 9, 29, 13, 0, none⟩ : PyDateTime).replaceTzinfoUtc :=
  ⟨((C1_wall_clock_tagged_utc (lineCheckout "2023-01-25T09:29:13" "3" "19.995")).1
      ⟨.str "checkout", .str "e-1", ⟨2023, 1, 25, 9, 29, 13, 0, some 0⟩,
        .str "u-1", 3, 2000⟩ rfl).1,
    (((C1_wall_clock_tagged_utc (lineCheckout "2023-01-25T09:29:13" "3" "19.995")).1
      ⟨.str "checkout", .str "e-1", ⟨2023, 1, 25, 9, 29, 13, 0, some 0⟩,
        .str "u-1", 3, 2000⟩ rfl).2.2
      [("eventType", .str "checkout"), ("eventId", .str "e-1"),
       ("timestamp", .str "2023-01-25T09:29:13"), ("userId", .str "u-1"),
       ("itemsInCart", .str "3"), ("totalValue", .str "19.995")]
      "2023-01-25T09:29:13" ⟨2023, 1, 25, 9, 29, 13, 0, none⟩ rfl rfl rfl).1⟩

/-- C10: on every input line the two variants succeed together; when both
    succeed they agree on eventType, eventId, timestamp, userId and
    itemsInCart, and the python-avro totalValue is exactly the python-fastavro
    decimal after `shift(2).to_integral_value(ROUND_HALF_EVEN)` — scaled
    integer cents versus the arbitrary-precision decimal itself. -/
theorem C10_variants_differ_only_in_totalValue (line : String) :
    ((∃ r, PyAvro.transform_record line = .ok r) ↔
      (∃ r, FastAvro.transform_record line = .ok r)) ∧
    (∀ rA rF, PyAvro.transform_record line = .ok rA →
      FastAvro.transform_record line = .ok rF →
      rA.eventType = rF.eventType ∧ rA.eventId = rF.eventId ∧
      rA.timestamp = rF.timestamp ∧ rA.userId = rF.userId ∧
      rA.itemsInCart = rF.itemsInCart ∧
      rA.totalValue = rF.totalValue.shift2.to_integral_half_even) := by
  unfold PyAvro.transform_record FastAvro.transform_record
  cases hl : pyLoads line with
  | error e => simp [*]
  | ok v =>
    cases h1 : dictGet v "eventType" with
    | error e => simp [*]
    | ok et =>
      cases h2 : dictGet v "eventId" with
      | error e => simp [*]
      | ok eid =>
        cases h3 : dictGet v "timestamp" with
        | error e => simp [*]
        | ok tsRaw =>
          cases h4 : dateutilParseValue tsRaw with
          | error e => simp [*]
          | ok ts =>
            cases h5 : dictGet v "userId" with
            | error e => simp [*]
            | ok uid =>
              cases h6 : dictGet v "itemsInCart" with
              | error e => simp [*]
              | ok icRaw =>
                cases h7 : pyIntOfValue icRaw with
                | error e => simp [*]
                | ok n =>
                  cases h8 : dictGet v "totalValue" with
                  | error e => simp [*]
                  | ok tvRaw =>
                    cases h9 : pyDecimalOfValue tvRaw with
                    | error e => simp [*]
                    | ok d => simp [*]

theorem C10_variants_differ_only_in_totalValue_witness :
    (⟨.str "checkout", .str "e-1", ⟨2023, 1, 25, 9, 29, 13, 0, some 0⟩,
        .str "u-1", 3, 2000⟩ : PyAvro.OutRecord).totalValue =
      (⟨.str "checkout", .str "e-1", ⟨2023, 1, 25, 9, 29, 13, 0, some 0⟩,
        .str "u-1", 3, ⟨false, 19995, -3⟩⟩ :
          FastAvro.OutRecord).totalValue.shift2.to_integral_half_even :=
  ((C10_variants_differ_only_in_totalValue
      (lineCheckout "2023-01-25T09:29:13" "3" "19.995")).2
    ⟨.str "checkout", .str "e-1", ⟨2023, 1, 25, 9, 29, 13, 0, some 0⟩, .str "u-1", 3, 2000⟩
    ⟨.str "checkout", .str "e-1", ⟨2023, 1, 25, 9, 29, 13, 0, some 0⟩, .str "u-1", 3,
      ⟨false, 19995, -3⟩⟩
    (by rfl) (by rfl)).2.2.2.2.2

/-- Unrolling the python-avro writer loop: the records appended so far stay in
    front, and the rest is one transformed record per remaining line, in order. -/
theorem PyAvro.writeLoop_ok_anatomy (lines : List String) :
    ∀ (acc recs : List PyAvro.OutRecord), PyAvro.writeLoop acc lines = .ok recs →
      ∃ tail, recs = acc ++ tail ∧
        List.Forall₂ (fun line r => PyAvro.transform_record line = .ok r) lines tail := by
  induction lines with
  | nil =>
    intro acc recs h
    rw [writeLoop] at h
    exact ⟨[], by simpa using (Except.ok.inj h).symm, List.Forall₂.nil⟩
  | cons l ls ih =>
    intro acc recs h
    rw [writeLoop] at h
    cases htr : transform_record l with
    | error e => rw [htr] at h; cases h
    | ok r =>
      rw [htr] at h
      obtain ⟨tail, hrecs, hall⟩ := ih (acc ++ [r]) recs h
      exact ⟨r :: tail, by simpa using hrecs, List.Forall₂.cons htr hall⟩

/-- Unrolling the python-fastavro list comprehension: one transformed record
    per line, in order. -/
theorem FastAvro.transformAll_ok_anatomy (lines : List String) :
    ∀ recs : List FastAvro.OutRecord, FastAvro.transformAll lines = .ok recs →
      List.Forall₂ (fun line r => FastAvro.transform_record line = .ok r) lines recs := by
  induction lines with
  | nil =>
    intro recs h
    rw [transformAll] at h
    rw [← Except.ok.inj h]
    exact List.Forall₂.nil
  | cons l ls ih =>
    intro recs h
    rw [transformAll] at h
    cases htr : transform_record l with
    | error e => rw [htr] at h; cases h
    | ok r =>
      rw [htr] at h
      cases hrest : transformAll ls with
      | error e => rw [hrest] at h; cases h
      | ok rs =>
        rw [hrest] at h
        rw [← Except.ok.inj h]
        exact List.Forall₂.cons htr (ih rs hrest)

/-- C7: for a well-formed input file (one on which conversion succeeds), both
    variants hand the Avro writer exactly one record per input line, the i-th
    output record being the transform of the i-th input line. -/
theorem C7_one_record_per_line_in_order (content : String) :
    (∀ recs, PyAvro.convertFile content = .ok recs →
      recs.length = (pyReadlines content).length ∧
      ∀ i h₁ h₂, PyAvro.transform_record ((pyReadlines content).get ⟨i, h₁⟩) =
        .ok (recs.get ⟨i, h₂⟩)) ∧
    (∀ recs, FastAvro.convertFile content = .ok recs →
      recs.length = (pyReadlines content).length ∧
      ∀ i h₁ h₂, FastAvro.transform_record ((pyReadlines content).get ⟨i, h₁⟩) =
        .ok (recs.get ⟨i, h₂⟩)) := by
  constructor
  · intro recs h
    obtain ⟨tail, hrecs, hall⟩ := PyAvro.writeLoop_ok_anatomy (pyReadlines content) [] recs h
    rw [List.nil_append] at hrecs
    subst hrecs
    obtain ⟨hlen, hget⟩ := List.forall₂_iff_get.1 hall
    exact ⟨hlen.symm, hget⟩
  · intro recs h
    have hall := FastAvro.transformAll_ok_anatomy (pyReadlines content) recs h
    obtain ⟨hlen, hget⟩ := List.forall₂_iff_get.1 hall
    exact ⟨hlen.symm, hget⟩

/-- A two-line input file used to exercise the file-level theorems. -/
def twoLineContent : String :=
  lineCheckout "2023-01-25T09:29:13" "3" "19.995" ++ "\n" ++
    lineCheckout "2023-01-25T10:00:00-05:00" "2" "7.25" ++ "\n"

theorem C7_one_record_per_line_in_order_witness :
    ([⟨.str "checkout", .str "e-1", ⟨2023, 1, 25, 9, 29, 13, 0, some 0⟩, .str "u-1", 3, 2000⟩,
      ⟨.str "checkout", .str "e-1", ⟨2023, 1, 25, 10, 0, 0, 0, some 0⟩, .str "u-1", 2, 725⟩] :
      List PyAvro.OutRecord).length = (pyReadlines twoLineContent).length ∧
    (pyReadlines twoLineContent).length = 2 :=
  ⟨((C7_one_record_per_line_in_order twoLineContent).1
      [⟨.str "checkout", .str "e-1", ⟨2023, 1, 25, 9, 29, 13, 0, some 0⟩, .str "u-1", 3, 2000⟩,
       ⟨.str "checkout", .str "e-1", ⟨2023, 1, 25, 10, 0, 0, 0, some 0⟩, .str "u-1", 2, 725⟩]
      (by rfl)).1, by rfl⟩

theorem roundHalfEvenQ_intCast (z : Int) : roundHalfEvenQ (z : ℚ) = z := by
  unfold roundHalfEvenQ
  rw [Int.floor_intCast]
  norm_num

theorem roundHalfEvenInt_eq_roundHalfEvenQ (n : Int) (k : Nat) (hk : 0 < k) :
    roundHalfEvenInt n k = roundHalfEvenQ ((n : ℚ) / (k : ℚ)) := by
  have hk' : (0 : ℚ) < (k : ℚ) := by exact_mod_cast hk
  have hkz : ((k : ℤ) : ℚ) ≠ 0 := by exact_mod_cast ne_of_gt hk'
  have hkZ : (0 : ℤ) < (k : ℤ) := by exact_mod_cast hk
  have hqr : (k : ℤ) * (n / (k : ℤ)) + n % (k : ℤ) = n := Int.ediv_add_emod n k
  have hr0 : (0 : ℤ) ≤ n % (k : ℤ) := Int.emod_nonneg n (ne_of_gt hkZ)
  have hrk : n % (k : ℤ) < (k : ℤ) := Int.emod_lt_of_pos n hkZ
  have hx : (n : ℚ) / (k : ℚ) = ((n / (k : ℤ) : ℤ) : ℚ) + ((n % (k : ℤ) : ℤ) : ℚ) / (k : ℚ) := by
    have h' : (k : ℚ) * ((n / (k : ℤ) : ℤ) : ℚ) + ((n % (k : ℤ) : ℤ) : ℚ) = (n : ℚ) := by
      exact_mod_cast hqr
    rw [← h', add_div, mul_div_cancel_left₀ _ (ne_of_gt hk')]
  have hfloor : ⌊(n : ℚ) / (k : ℚ)⌋ = n / (k : ℤ) := by
    rw [hx, add_comm, Int.floor_add_int]
    have h0 : ⌊((n % (k : ℤ) : ℤ) : ℚ) / (k : ℚ)⌋ = 0 := by
      rw [Int.floor_eq_zero_iff]
      constructor
      · positivity
      · rw [div_lt_one hk']
        exact_mod_cast hrk
    rw [h0, zero_add]
  have hfract : (n : ℚ) / (k : ℚ) - ⌊(n : ℚ) / (k : ℚ)⌋ = ((n % (k : ℤ) : ℤ) : ℚ) / (k : ℚ) := by
    rw [hfloor, hx]
    ring
  have c1 : ((n : ℚ) / (k : ℚ) - ⌊(n : ℚ) / (k : ℚ)⌋ < 1 / 2) ↔ (2 * (n % (k : ℤ)) < (k : ℤ)) := by
    rw [hfract, div_lt_div_iff₀ hk' two_pos, one_mul, mul_comm]
    exact_mod_cast Iff.rfl
  have c2 : (1 / 2 < (n : ℚ) / (k : ℚ) - ⌊(n : ℚ) / (k : ℚ)⌋) ↔ ((k : ℤ) < 2 * (n % (k : ℤ))) := by
    rw [hfract, div_lt_div_iff₀ two_pos hk', one_mul, mul_comm]
    exact_mod_cast Iff.rfl
  unfold roundHalfEvenInt roundHalfEvenQ
  simp only [c1, c2]
  simp only [hfloor]

/-- When the scaled coefficient still fits in the 28-digit context precision,
    `shift(2)` followed by `to_integral_value(ROUND_HALF_EVEN)` computes exactly
    "multiply the decimal's value by 100 and round half-to-even". -/
theorem shift2_to_integral_eq (d : Dec) (h : d.coeff * 100 < 10 ^ 28) :
    d.shift2.to_integral_half_even = roundHalfEvenQ (100 * decValue d) := by
  have hc : d.coeff * 100 % 10 ^ 28 = d.coeff * 100 := Nat.mod_eq_of_lt h
  cases hd : d.exp with
  | ofNat e =>
    have lhs : d.shift2.to_integral_half_even =
        d.signFactor * (d.coeff * 100 : ℕ) * 10 ^ e := by
      unfold Dec.shift2 Dec.to_integral_half_even Dec.signFactor
      simp only [hd, hc]
    have rhs : 100 * decValue d = ((d.signFactor * (d.coeff * 100 : ℕ) * 10 ^ e : ℤ) : ℚ) := by
      unfold decValue
      rw [hd]
      rw [show (Int.ofNat e) = (e : ℤ) from rfl, zpow_natCast]
      push_cast
      ring
    rw [lhs, rhs, roundHalfEvenQ_intCast]
  | negSucc e =>
    have lhs : d.shift2.to_integral_half_even =
        roundHalfEvenInt (d.signFactor * (d.coeff * 100 : ℕ)) ((10 ^ (e + 1) : ℕ) : ℤ) := by
      unfold Dec.shift2 Dec.to_integral_half_even Dec.signFactor
      simp only [hd, hc]
      push_cast
      ring_nf
    have rhs : 100 * decValue d =
        ((d.signFactor * (d.coeff * 100 : ℕ) : ℤ) : ℚ) / ((10 ^ (e + 1) : ℕ) : ℚ) := by
      unfold decValue
      rw [hd, zpow_negSucc]
      push_cast
      rw [div_eq_mul_inv]
      ring
    rw [lhs, rhs, roundHalfEvenInt_eq_roundHalfEvenQ _ _ (by positivity)]

/-- C3 (amended): for an input line whose totalValue is a decimal-numeral
    string, a successful python-avro transform yields exactly the decimal's
    value multiplied by 100 and rounded half-to-even — provided the scaled
    coefficient fits in the default 28-digit context precision
    (`d.coeff * 100 < 10 ^ 28`); beyond that, `shift(2)` silently discards the
    leading digits (see the counterexample). -/
theorem C3_scaled_value_within_precision (line : String) (fields : List (String × PVal))
    (s : String) (d : Dec)
    (hload : pyLoads line = .ok (.obj fields))
    (hlook : lookupLast fields "totalValue" = some (.str s))
    (hdec : pyDecimalOfString s = some d)
    (hfit : d.coeff * 100 < 10 ^ 28) :
    ∀ r, PyAvro.transform_record line = .ok r →
      r.totalValue = roundHalfEvenQ (100 * decValue d) := by
  intro r hr
  obtain ⟨v, hv, -, -, -, -, -, ⟨tvRaw, d', hTV, hDec, htv⟩⟩ :=
    PyAvro.pyavro_transform_ok_elim line r hr
  rw [hload] at hv
  cases hv
  obtain rfl : PVal.str s = tvRaw :=
    Except.ok.inj ((dictGet_eq_of_lookup hlook).symm.trans hTV)
  rw [pyDecimalOfValue, hdec] at hDec
  obtain rfl : d = d' := Except.ok.inj hDec
  rw [htv, shift2_to_integral_eq d hfit]

theorem C3_scaled_value_within_precision_witness :
    (⟨.str "checkout", .str "e-1", ⟨2023, 1, 25, 9, 29, 13, 0, some 0⟩,
        .str "u-1", 3, 2000⟩ : PyAvro.OutRecord).totalValue =
      roundHalfEvenQ (100 * decValue ⟨false, 19995, -3⟩) :=
  C3_scaled_value_within_precision (lineCheckout "2023-01-25T09:29:13" "3" "19.995")
    [("eventType", .str "checkout"), ("eventId", .str "e-1"),
     ("timestamp", .str "2023-01-25T09:29:13"), ("userId", .str "u-1"),
     ("itemsInCart", .str "3"), ("totalValue", .str "19.995")]
    "19.995" ⟨false, 19995, -3⟩ (by rfl) (by rfl) (by rfl) (by norm_num)
    ⟨.str "checkout", .str "e-1", ⟨2023, 1, 25, 9, 29, 13, 0, some 0⟩, .str "u-1", 3, 2000⟩
    rfl

/-- C3 counterexample: on a valid 28-digit decimal numeral the code's result is
    not value×100 rounded half-to-even: the two digits shifted past the
    28-digit precision window are lost, so 99999999999999999999999999.99
    becomes 99999999999999999999999999 instead of the claimed
    9999999999999999999999999999 (= 100 times the value, which is already
    integral). -/
theorem C3_precision_loss_counterexample :
    pyDecimalOfString "99999999999999999999999999.99" = some ⟨false, 10 ^ 28 - 1, -2⟩ ∧
    (PyAvro.transform_record (lineCheckout "2023-01-25T09:29:13" "3"
        "99999999999999999999999999.99")).map PyAvro.OutRecord.totalValue =
      .ok 99999999999999999999999999 ∧
    roundHalfEvenQ (100 * decValue ⟨false, 10 ^ 28 - 1, -2⟩) = 9999999999999999999999999999 ∧
    (99999999999999999999999999 : Int) ≠ 9999999999999999999999999999 := by
  refine ⟨by decide, by rfl, ?_, by decide⟩
  have h1 : (100 : ℚ) * decValue ⟨false, 10 ^ 28 - 1, -2⟩ =
      ((9999999999999999999999999999 : ℤ) : ℚ) := by
    unfold decValue Dec.signFactor
    rw [show (-2 : ℤ) = Int.negSucc 1 from rfl, zpow_negSucc]
    norm_num
  rw [h1, roundHalfEvenQ_intCast]

def isObjB : PVal → Bool
  | .obj _ => true
  | _ => false

theorem pyLoads_error_eq (line : String) (e : PyErr) (h : pyLoads line = .error e) :
    e = .jsonDecodeError := by
  unfold pyLoads at h
  repeat' split at h
  all_goals cases h
  all_goals rfl

theorem tsFieldOk_eq_isOk (x : PVal) : tsFieldOk (some x) = (dateutilParseValue x).isOk := by
  cases x with
  | str s => cases h : dateutilParse s <;> simp [tsFieldOk, dateutilParseValue, h, Except.isOk, Except.toBool]
  | bool b => rfl
  | null => rfl
  | list xs => rfl
  | obj fs => rfl

theorem intFieldOk_eq_isOk (x : PVal) : intFieldOk (some x) = (pyIntOfValue x).isOk := by
  cases x with
  | str s => cases h : pyIntOfString s <;> simp [intFieldOk, pyIntOfValue, h, Except.isOk, Except.toBool]
  | bool b => rfl
  | null => rfl
  | list xs => rfl
  | obj fs => rfl

theorem decFieldOk_eq_isOk (x : PVal) : decFieldOk (some x) = (pyDecimalOfValue x).isOk := by
  cases x with
  | str s => cases h : pyDecimalOfString s <;> simp [decFieldOk, pyDecimalOfValue, h, Except.isOk, Except.toBool]
  | bool b => rfl
  | null => rfl
  | list xs => rfl
  | obj fs => rfl


/-- C6 (amended): classification of `transform_record` outcomes, for both
    variants.  A line fails with the JSON-decode error exactly when it is not
    well-formed JSON; a well-formed non-object value fails with `TypeError`;
    on an object, the six fields are evaluated in dict-literal order and the
    first failing one determines the exception — `KeyError` for a missing key,
    `ValueError` for a malformed timestamp or itemsInCart string,
    `decimal.InvalidOperation` for a malformed totalValue string; and the
    transform succeeds exactly when none of these conditions occurs. -/
theorem C6_outcome_classification (line : String) :
    ((∃ r, PyAvro.transform_record line = .ok r) ↔ goodLine line = true) ∧
    ((∃ r, FastAvro.transform_record line = .ok r) ↔ goodLine line = true) ∧
    (PyAvro.transform_record line = .error .jsonDecodeError ↔
      condMalformedJson line = true) ∧
    (FastAvro.transform_record line = .error .jsonDecodeError ↔
      condMalformedJson line = true) ∧
    (∀ v, pyLoads line = .ok v → isObjB v = false →
      PyAvro.transform_record line = .error .typeError ∧
      FastAvro.transform_record line = .error .typeError) ∧
    (∀ fields, pyLoads line = .ok (.obj fields) →
      ((lookupLast fields "eventType" = none →
        PyAvro.transform_record line = .error .keyError ∧
        FastAvro.transform_record line = .error .keyError) ∧
       ((lookupLast fields "eventType").isSome = true →
        lookupLast fields "eventId" = none →
        PyAvro.transform_record line = .error .keyError ∧
        FastAvro.transform_record line = .error .keyError) ∧
       ((lookupLast fields "eventType").isSome = true →
        (lookupLast fields "eventId").isSome = true →
        lookupLast fields "timestamp" = none →
        PyAvro.transform_record line = .error .keyError ∧
        FastAvro.transform_record line = .error .keyError) ∧
       ((lookupLast fields "eventType").isSome = true →
        (lookupLast fields "eventId").isSome = true →
        (∀ s, lookupLast fields "timestamp" = some (.str s) →
          dateutilParse s = none →
          PyAvro.transform_record line = .error .valueError ∧
          FastAvro.transform_record line = .error .valueError)) ∧
       ((lookupLast fields "eventType").isSome = true →
        (lookupLast fields "eventId").isSome = true →
        tsFieldOk (lookupLast fields "timestamp") = true →
        lookupLast fields "userId" = none →
        PyAvro.transform_record line = .error .keyError ∧
        FastAvro.transform_record line = .error .keyError) ∧
       ((lookupLast fields "eventType").isSome = true →
        (lookupLast fields "eventId").isSome = true →
        tsFieldOk (lookupLast fields "timestamp") = true →
        (lookupLast fields "userId").isSome = true →
        lookupLast fields "itemsInCart" = none →
        PyAvro.transform_record line = .error .keyError ∧
        FastAvro.transform_record line = .error .keyError) ∧
       ((lookupLast fields "eventType").isSome = true →
        (lookupLast fields "eventId").isSome = true →
        tsFieldOk (lookupLast fields "timestamp") = true →
        (lookupLast fields "userId").isSome = true →
        (∀ s, lookupLast fields "itemsInCart" = some (.str s) →
          pyIntOfString s = none →
          PyAvro.transform_record line = .error .valueError ∧
          FastAvro.transform_record line = .error .valueError)) ∧
       ((lookupLast fields "eventType").isSome = true →
        (lookupLast fields "eventId").isSome = true →
        tsFieldOk (lookupLast fields "timestamp") = true →
        (lookupLast fields "userId").isSome = true →
        intFieldOk (lookupLast fields "itemsInCart") = true →
        lookupLast fields "totalValue" = none →
        PyAvro.transform_record line = .error .keyError ∧
        FastAvro.transform_record line = .error .keyError) ∧
       ((lookupLast fields "eventType").isSome = true →
        (lookupLast fields "eventId").isSome = true →
        tsFieldOk (lookupLast fields "timestamp") = true →
        (lookupLast fields "userId").isSome = true →
        intFieldOk (lookupLast fields "itemsInCart") = true →
        (∀ s, lookupLast fields "totalValue" = some (.str s) →
          pyDecimalOfString s = none →
          PyAvro.transform_record line = .error .invalidOperation ∧
          FastAvro.transform_record line = .error .invalidOperation)))) := by
  cases hl : pyLoads line with
  | error e =>
    have he := pyLoads_error_eq line e hl
    subst he
    simp [PyAvro.transform_record, FastAvro.transform_record, goodLine, condMalformedJson, hl]
  | ok v =>
    cases v with
    | str s =>
      simp [PyAvro.transform_record, FastAvro.transform_record, goodLine, condMalformedJson,
        dictGet, isObjB, hl]
    | bool b =>
      simp [PyAvro.transform_record, FastAvro.transform_record, goodLine, condMalformedJson,
        dictGet, isObjB, hl]
    | null =>
      simp [PyAvro.transform_record, FastAvro.transform_record, goodLine, condMalformedJson,
        dictGet, isObjB, hl]
    | list xs =>
      simp [PyAvro.transform_record, FastAvro.transform_record, goodLine, condMalformedJson,
        dictGet, isObjB, hl]
    | obj fields =>
      cases hET : lookupLast fields "eventType" with
      | none =>
        simp [PyAvro.transform_record, FastAvro.transform_record, goodLine, goodFields,
          condMalformedJson, dictGet, isObjB, hl, hET]
      | some et =>
      cases hEID : lookupLast fields "eventId" with
      | none =>
        simp [PyAvro.transform_record, FastAvro.transform_record, goodLine, goodFields,
          condMalformedJson, dictGet, isObjB, hl, hET, hEID]
      | some eid =>
      cases hTS : lookupLast fields "timestamp" with
      | none =>
        simp [PyAvro.transform_record, FastAvro.transform_record, goodLine, goodFields,
          condMalformedJson, dictGet, isObjB, tsFieldOk, hl, hET, hEID, hTS]
      | some tsRaw =>
      cases hP : dateutilParseValue tsRaw with
      | error e2 =>
        have hTokF : tsFieldOk (some tsRaw) = false := by rw [tsFieldOk_eq_isOk, hP]; rfl
        cases tsRaw with
        | str s2 =>
          cases hp2 : dateutilParse s2 with
          | none =>
            have he2 : PyErr.valueError = e2 := by
              have h' := hP
              simp [dateutilParseValue, hp2] at h'
              rw [h']
            cases he2
            simp [PyAvro.transform_record, FastAvro.transform_record, goodLine, goodFields,
              condMalformedJson, dictGet, isObjB, hl, hET, hEID, hTS, hP, hTokF, hp2]
          | some dt =>
            simp [dateutilParseValue, hp2] at hP
        | bool b =>
          have he2 : PyErr.typeError = e2 := by
            have h' := hP
            simp [dateutilParseValue] at h'
            rw [h']
          cases he2
          simp [PyAvro.transform_record, FastAvro.transform_record, goodLine, goodFields,
            condMalformedJson, dictGet, isObjB, hl, hET, hEID, hTS, hP, hTokF]
        | null =>
          have he2 : PyErr.typeError = e2 := by
            have h' := hP
            simp [dateutilParseValue] at h'
            rw [h']
          cases he2
          simp [PyAvro.transform_record, FastAvro.transform_record, goodLine, goodFields,
            condMalformedJson, dictGet, isObjB, hl, hET, hEID, hTS, hP, hTokF]
        | list xs2 =>
          have he2 : PyErr.typeError = e2 := by
            have h' := hP
            simp [dateutilParseValue] at h'
            rw [h']
          cases he2
          simp [PyAvro.transform_record, FastAvro.transform_record, goodLine, goodFields,
            condMalformedJson, dictGet, isObjB, hl, hET, hEID, hTS, hP, hTokF]
        | obj fs2 =>
          have he2 : PyErr.typeError = e2 := by
            have h' := hP
            simp [dateutilParseValue] at h'
            rw [h']
          cases he2
          simp [PyAvro.transform_record, FastAvro.transform_record, goodLine, goodFields,
            condMalformedJson, dictGet, isObjB, hl, hET, hEID, hTS, hP, hTokF]
      | ok ts =>
      have hTok : tsFieldOk (some tsRaw) = true := by rw [tsFieldOk_eq_isOk, hP]; rfl
      have hPs : ∀ s, tsRaw = PVal.str s → ¬ dateutilParse s = none := by
        intro s hs h0
        rw [hs] at hP
        simp [dateutilParseValue, h0] at hP
      cases hUID : lookupLast fields "userId" with
      | none =>
        simp [PyAvro.transform_record, FastAvro.transform_record, goodLine, goodFields,
          condMalformedJson, dictGet, isObjB, hl, hET, hEID, hTS, hP, hTok, hPs, hUID] <;> first | exact hPs | exact ⟨hPs, hIs⟩ | exact ⟨hPs, hIs, hDs⟩
      | some uid =>
      cases hIC : lookupLast fields "itemsInCart" with
      | none =>
        simp [PyAvro.transform_record, FastAvro.transform_record, goodLine, goodFields,
          condMalformedJson, dictGet, isObjB, intFieldOk, hl, hET, hEID, hTS, hP, hTok, hPs,
          hUID, hIC] <;> first | exact hPs | exact ⟨hPs, hIs⟩ | exact ⟨hPs, hIs, hDs⟩
      | some icRaw =>
      cases hInt : pyIntOfValue icRaw with
      | error e3 =>
        have hIokF : intFieldOk (some icRaw) = false := by rw [intFieldOk_eq_isOk, hInt]; rfl
        cases icRaw with
        | str s3 =>
          cases hp3 : pyIntOfString s3 with
          | none =>
            have he3 : PyErr.valueError = e3 := by
              have h' := hInt
              simp [pyIntOfValue, hp3] at h'
              rw [h']
            cases he3
            simp [PyAvro.transform_record, FastAvro.transform_record, goodLine, goodFields,
              condMalformedJson, dictGet, isObjB, hl, hET, hEID, hTS, hP, hTok, hPs, hUID,
              hIC, hInt, hIokF, hp3] <;> first | exact hPs | exact ⟨hPs, hIs⟩ | exact ⟨hPs, hIs, hDs⟩
          | some n =>
            simp [pyIntOfValue, hp3] at hInt
        | bool b =>
          simp [pyIntOfValue] at hInt
        | null =>
          have he3 : PyErr.typeError = e3 := by
            have h' := hInt
            simp [pyIntOfValue] at h'
            rw [h']
          cases he3
          simp [PyAvro.transform_record, FastAvro.transform_record, goodLine, goodFields,
            condMalformedJson, dictGet, isObjB, hl, hET, hEID, hTS, hP, hTok, hPs, hUID,
            hIC, hInt, hIokF] <;> first | exact hPs | exact ⟨hPs, hIs⟩ | exact ⟨hPs, hIs, hDs⟩
        | list xs3 =>
          have he3 : PyErr.typeError = e3 := by
            have h' := hInt
            simp [pyIntOfValue] at h'
            rw [h']
          cases he3
          simp [PyAvro.transform_record, FastAvro.transform_record, goodLine, goodFields,
            condMalformedJson, dictGet, isObjB, hl, hET, hEID, hTS, hP, hTok, hPs, hUID,
            hIC, hInt, hIokF] <;> first | exact hPs | exact ⟨hPs, hIs⟩ | exact ⟨hPs, hIs, hDs⟩
        | obj fs3 =>
          have he3 : PyErr.typeError = e3 := by
            have h' := hInt
            simp [pyIntOfValue] at h'
            rw [h']
          cases he3
          simp [PyAvro.transform_record, FastAvro.transform_record, goodLine, goodFields,
            condMalformedJson, dictGet, isObjB, hl, hET, hEID, hTS, hP, hTok, hPs, hUID,
            hIC, hInt, hIokF] <;> first | exact hPs | exact ⟨hPs, hIs⟩ | exact ⟨hPs, hIs, hDs⟩
      | ok n =>
      have hIok : intFieldOk (some icRaw) = true := by rw [intFieldOk_eq_isOk, hInt]; rfl
      have hIs : ∀ s, icRaw = PVal.str s → ¬ pyIntOfString s = none := by
        intro s hs h0
        rw [hs] at hInt
        simp [pyIntOfValue, h0] at hInt
      cases hTV : lookupLast fields "totalValue" with
      | none =>
        simp [PyAvro.transform_record, FastAvro.transform_record, goodLine, goodFields,
          condMalformedJson, dictGet, isObjB, decFieldOk, hl, hET, hEID, hTS, hP, hTok, hPs,
          hUID, hIC, hInt, hIok, hIs, hTV] <;> first | exact hPs | exact ⟨hPs, hIs⟩ | exact ⟨hPs, hIs, hDs⟩
      | some tvRaw =>
      cases hDec : pyDecimalOfValue tvRaw with
      | error e4 =>
        have hDokF : decFieldOk (some tvRaw) = false := by rw [decFieldOk_eq_isOk, hDec]; rfl
        cases tvRaw with
        | str s4 =>
          cases hp4 : pyDecimalOfString s4 with
          | none =>
            have he4 : PyErr.invalidOperation = e4 := by
              have h' := hDec
              simp [pyDecimalOfValue, hp4] at h'
              rw [h']
            cases he4
            simp [PyAvro.transform_record, FastAvro.transform_record, goodLine, goodFields,
              condMalformedJson, dictGet, isObjB, hl, hET, hEID, hTS, hP, hTok, hPs, hUID,
              hIC, hInt, hIok, hIs, hTV, hDec, hDokF, hp4] <;> first | exact hPs | exact ⟨hPs, hIs⟩ | exact ⟨hPs, hIs, hDs⟩
          | some d =>
            simp [pyDecimalOfValue, hp4] at hDec
        | bool b =>
          simp [pyDecimalOfValue] at hDec
        | null =>
          have he4 : PyErr.typeError = e4 := by
            have h' := hDec
            simp [pyDecimalOfValue] at h'
            rw [h']
          cases he4
          simp [PyAvro.transform_record, FastAvro.transform_record, goodLine, goodFields,
            condMalformedJson, dictGet, isObjB, hl, hET, hEID, hTS, hP, hTok, hPs, hUID,
            hIC, hInt, hIok, hIs, hTV, hDec, hDokF] <;> first | exact hPs | exact ⟨hPs, hIs⟩ | exact ⟨hPs, hIs, hDs⟩
        | list xs4 =>
          have he4 : PyErr.typeError = e4 := by
            have h' := hDec
            simp [pyDecimalOfValue] at h'
            rw [h']
          cases he4
          simp [PyAvro.transform_record, FastAvro.transform_record, goodLine, goodFields,
            condMalformedJson, dictGet, isObjB, hl, hET, hEID, hTS, hP, hTok, hPs, hUID,
            hIC, hInt, hIok, hIs, hTV, hDec, hDokF] <;> first | exact hPs | exact ⟨hPs, hIs⟩ | exact ⟨hPs, hIs, hDs⟩
        | obj fs4 =>
          have he4 : PyErr.typeError = e4 := by
            have h' := hDec
            simp [pyDecimalOfValue] at h'
            rw [h']
          cases he4
          simp [PyAvro.transform_record, FastAvro.transform_record, goodLine, goodFields,
            condMalformedJson, dictGet, isObjB, hl, hET, hEID, hTS, hP, hTok, hPs, hUID,
            hIC, hInt, hIok, hIs, hTV, hDec, hDokF] <;> first | exact hPs | exact ⟨hPs, hIs⟩ | exact ⟨hPs, hIs, hDs⟩
      | ok d =>
        have hDok : decFieldOk (some tvRaw) = true := by rw [decFieldOk_eq_isOk, hDec]; rfl
        have hDs : ∀ s, tvRaw = PVal.str s → ¬ pyDecimalOfString s = none := by
          intro s hs h0
          rw [hs] at hDec
          simp [pyDecimalOfValue, h0] at hDec
        simp [PyAvro.transform_record, FastAvro.transform_record, goodLine, goodFields,
          condMalformedJson, dictGet, isObjB, hl, hET, hEID, hTS, hP, hTok, hPs, hUID,
          hIC, hInt, hIok, hIs, hTV, hDec, hDok, hDs] <;> first | exact hPs | exact ⟨hPs, hIs⟩ | exact ⟨hPs, hIs, hDs⟩

/-- C6 counterexample: the line "[]" is well-formed JSON, has no key missing
    from an input object and no malformed timestamp or numeric field — so the
    claim's "succeeds exactly when none of these conditions hold" predicts
    success — yet both transforms fail, with a TypeError (subscripting a list
    with a string), an error class the claim does not provide for. -/
theorem C6_nonobject_counterexample :
    condMalformedJson "[]" = false ∧
    condMissingKey "[]" = false ∧
    condMalformedField "[]" = false ∧
    (PyAvro.transform_record "[]").isOk = false ∧
    (FastAvro.transform_record "[]").isOk = false ∧
    PyAvro.transform_record "[]" = .error .typeError ∧
    FastAvro.transform_record "[]" = .error .typeError :=
  ⟨rfl, rfl, rfl, rfl, rfl, rfl, rfl⟩

theorem C6_outcome_classification_witness :
    pyLoads "[]" = .ok (.list []) ∧ isObjB (.list []) = false ∧
    PyAvro.transform_record "[]" = .error .typeError ∧
    FastAvro.transform_record "[]" = .error .typeError :=
  ⟨rfl, rfl, (C6_outcome_classification "[]").2.2.2.2.1 (.list []) rfl rfl⟩

/-! ### For C9: flat event lines with each field given as a JSON literal -/

/-- A field value's JSON syntax: an unquoted numeric literal or a quoted string. -/
inductive FieldLit where
  | numLit (s : String)
  | strLit (s : String)

/-- Characters that print inside a JSON string as themselves. -/
def plainChar (c : Char) : Bool := 32 ≤ c.toNat && c ≠ '"' && c ≠ '\\'

def printLit : FieldLit → List Char
  | .numLit s => s.data
  | .strLit s => '"' :: s.data ++ ['"']

/-- The Python value `json.loads` (with its numeral hooks) produces for a field
    literal: the numeral's exact text, or the string itself. -/
def interpLit : FieldLit → PVal
  | .numLit s => .str s
  | .strLit s => .str s

def printFields : List (String × FieldLit) → List Char
  | [] => []
  | [(k, v)] => '"' :: k.data ++ '"' :: ':' :: printLit v
  | (k, v) :: rest => '"' :: k.data ++ '"' :: ':' :: printLit v ++ ',' :: printFields rest

/-- One JSON object line with the given fields, printed without spaces. -/
def printObjLine (fs : List (String × FieldLit)) : String :=
  ⟨'\x7b' :: (printFields fs ++ ['\x7d'])⟩

def interpFields (fs : List (String × FieldLit)) : List (String × PVal) :=
  fs.map (fun p => (p.1, interpLit p.2))

def stringifyLit : FieldLit → FieldLit
  | .numLit s => .strLit s
  | .strLit s => .strLit s

/-- Rewrite every unquoted numeric literal as the quoted string of the same
    digits. -/
def stringifyNums (fs : List (String × FieldLit)) : List (String × FieldLit) :=
  fs.map (fun p => (p.1, stringifyLit p.2))

def validLit : FieldLit → Bool
  | .numLit s => !s.data.isEmpty && s.data.all isNumChar && isJsonNumberTok s.data
  | .strLit s => s.data.all plainChar

def validFields (fs : List (String × FieldLit)) : Bool :=
  fs.all (fun p => p.1.data.all plainChar && validLit p.2)

theorem skipWs_not_ws {c : Char} (rest : List Char) (h : isJsonWs c = false) :
    skipWs (c :: rest) = c :: rest := by
  simp [skipWs, h]

theorem parseStringBody_plain (ks : List Char) :
    ∀ (fuel : Nat) (rest : List Char), ks.length < fuel → ks.all plainChar = true →
    parseStringBody fuel (ks ++ '"' :: rest) = some (ks, rest) := by
  induction ks with
  | nil =>
    intro fuel rest hf h
    obtain ⟨f, rfl⟩ : ∃ f, fuel = f + 1 := ⟨fuel - 1, by omega⟩
    simp [parseStringBody]
  | cons c cs ih =>
    intro fuel rest hf h
    obtain ⟨f, rfl⟩ : ∃ f, fuel = f + 1 := ⟨fuel - 1, by omega⟩
    rw [List.all_cons, Bool.and_eq_true] at h
    obtain ⟨hc, hcs⟩ := h
    rw [plainChar, Bool.and_eq_true, Bool.and_eq_true] at hc
    obtain ⟨⟨h32, hq⟩, hbs⟩ := hc
    rw [decide_eq_true_eq] at hq hbs h32
    have hlen : cs.length < f := by
      simp at hf
      omega
    simp [parseStringBody, hq, hbs, if_neg (by omega : ¬ c.toNat < 32),
      ih f rest hlen hcs]

theorem takeWhile_all_append (p : Char → Bool) (xs : List Char) (r : Char) (rest : List Char)
    (hxs : xs.all p = true) (hr : p r = false) :
    (xs ++ r :: rest).takeWhile p = xs ∧ (xs ++ r :: rest).dropWhile p = r :: rest := by
  induction xs with
  | nil => simp [List.takeWhile, List.dropWhile, hr]
  | cons c cs ih =>
    rw [List.all_cons, Bool.and_eq_true] at hxs
    obtain ⟨hc, hcs⟩ := hxs
    obtain ⟨ih1, ih2⟩ := ih hcs
    simp [List.takeWhile, List.dropWhile, hc, ih1, ih2]

theorem parseNumberTok_print (s : String) (r : Char) (rest : List Char)
    (hall : s.data.all isNumChar = true) (hgram : isJsonNumberTok s.data = true)
    (hr : isNumChar r = false) :
    parseNumberTok (s.data ++ r :: rest) = some (s, r :: rest) := by
  obtain ⟨h1, h2⟩ := takeWhile_all_append isNumChar s.data r rest hall hr
  rw [parseNumberTok]
  simp only [h1, h2, hgram, if_pos]

theorem numLit_head (s : String) (hgram : isJsonNumberTok s.data = true) :
    ∃ c tail, s.data = c :: tail ∧ (isDigit c = true ∨ c = '-') := by
  cases hd : s.data with
  | nil => rw [hd, isJsonNumberTok] at hgram; cases hgram
  | cons c tail =>
    refine ⟨c, tail, rfl, ?_⟩
    rw [hd, isJsonNumberTok] at hgram
    by_cases hc : c = '-'
    · right; exact hc
    · left
      rw [if_neg hc, unsignedNumBody] at hgram
      by_cases h0 : c = '0'
      · subst h0; decide
      · rw [if_neg h0, Bool.and_eq_true] at hgram
        exact hgram.1

theorem numHead_conds (c : Char) (h : isDigit c = true ∨ c = '-') :
    isJsonWs c = false ∧ c ≠ '"' ∧ c ≠ '\x7b' ∧ c ≠ '[' ∧ c ≠ 't' ∧ c ≠ 'f' ∧ c ≠ 'n' := by
  rcases h with hd | rfl
  · refine ⟨?_, ?_, ?_, ?_, ?_, ?_, ?_⟩
    · cases hw : isJsonWs c
      · rfl
      · exfalso
        rw [isJsonWs] at hw
        simp only [Bool.or_eq_true, decide_eq_true_eq] at hw
        rcases hw with ((rfl | rfl) | rfl) | rfl <;> exact absurd hd (by decide)
    all_goals intro he; subst he; exact absurd hd (by decide)
  · exact ⟨rfl, by decide, by decide, by decide, by decide, by decide, by decide⟩

theorem parseVal_printLit (f : Nat) (lit : FieldLit) (r : Char) (rest2 : List Char)
    (hval : validLit lit = true) (hr : r = ',' ∨ r = '\x7d') :
    parseVal (f + 1) (printLit lit ++ r :: rest2) = some (interpLit lit, r :: rest2) := by
  cases lit with
  | strLit s =>
    rw [validLit] at hval
    have he : printLit (.strLit s) ++ r :: rest2 = '"' :: (s.data ++ '"' :: (r :: rest2)) := by
      simp [printLit]
    rw [he, parseVal, skipWs_not_ws _ (by decide)]
    have hlen : s.data.length < (s.data ++ '"' :: (r :: rest2)).length := by
      simp [List.length_append]
    show (parseStringBody (s.data ++ '"' :: (r :: rest2)).length
        (s.data ++ '"' :: (r :: rest2))).map (fun p => (PVal.str ⟨p.1⟩, p.2)) =
      some (interpLit (.strLit s), r :: rest2)
    rw [parseStringBody_plain s.data _ _ hlen hval]
    rfl
  | numLit s =>
    rw [validLit, Bool.and_eq_true, Bool.and_eq_true] at hval
    obtain ⟨⟨hne, hall⟩, hgram⟩ := hval
    obtain ⟨c, tail, hd, hcm⟩ := numLit_head s hgram
    obtain ⟨hws, hq, hbrace, hbrk, ht, hf, hn⟩ := numHead_conds c hcm
    have hrn : isNumChar r = false := by rcases hr with rfl | rfl <;> decide
    have he : printLit (.numLit s) ++ r :: rest2 = c :: (tail ++ r :: rest2) := by
      simp [printLit, hd]
    rw [he, parseVal, skipWs_not_ws _ hws]
    simp only [if_neg hq, if_neg hbrace, if_neg hbrk, if_neg ht, if_neg hf, if_neg hn]
    have he2 : c :: (tail ++ r :: rest2) = s.data ++ r :: rest2 := by
      rw [hd]; rfl
    rw [he2, parseNumberTok_print s r rest2 hall hgram hrn]
    rfl

theorem printFields_head (k : String) (v : FieldLit) (fs : List (String × FieldLit)) :
    ∃ t, printFields ((k, v) :: fs) = '"' :: t := by
  cases fs with
  | nil => exact ⟨k.data ++ '"' :: ':' :: printLit v, by simp [printFields]⟩
  | cons kv2 fs'' =>
    exact ⟨k.data ++ '"' :: ':' :: printLit v ++ ',' :: printFields (kv2 :: fs''),
      by simp [printFields]⟩

theorem parseMembers_print
    (pv : List Char → Option (PVal × List Char))
    (hpv : ∀ lit r rest2, validLit lit = true → (r = ',' ∨ r = '\x7d') →
      pv (printLit lit ++ r :: rest2) = some (interpLit lit, r :: rest2)) :
    ∀ (fs : List (String × FieldLit)) (g : Nat) (rest : List Char), fs ≠ [] →
      validFields fs = true → fs.length ≤ g →
      parseMembers pv g (printFields fs ++ '\x7d' :: rest) =
        some (interpFields fs, rest) := by
  intro fs
  induction fs with
  | nil => intro g rest hne; exact absurd rfl hne
  | cons kv fs' ih =>
    obtain ⟨k, v⟩ := kv
    intro g rest hne hval hlen
    obtain ⟨g', rfl⟩ : ∃ g', g = g' + 1 := ⟨g - 1, by simp at hlen ⊢; omega⟩
    rw [validFields, List.all_cons, Bool.and_eq_true] at hval
    obtain ⟨hkv, hval'⟩ := hval
    rw [Bool.and_eq_true] at hkv
    obtain ⟨hk, hv⟩ := hkv
    cases fs' with
    | nil =>
      have he : printFields [(k, v)] ++ '\x7d' :: rest =
          '"' :: (k.data ++ '"' :: (':' :: (printLit v ++ '\x7d' :: rest))) := by
        simp [printFields]
      rw [he, parseMembers]
      rw [parseStringBody_plain k.data _ _ (by simp) hk]
      have hsk1 : skipWs (':' :: (printLit v ++ '\x7d' :: rest)) =
          ':' :: (printLit v ++ '\x7d' :: rest) := skipWs_not_ws _ (by decide)
      have hsk2 : skipWs ('\x7d' :: rest) = '\x7d' :: rest := skipWs_not_ws _ (by decide)
      simp only [hsk1, hsk2, hpv v '\x7d' rest hv (Or.inr rfl)]
      rfl
    | cons kv2 fs'' =>
      have he : printFields ((k, v) :: kv2 :: fs'') ++ '\x7d' :: rest =
          '"' :: (k.data ++ '"' :: (':' ::
            (printLit v ++ ',' :: (printFields (kv2 :: fs'') ++ '\x7d' :: rest)))) := by
        simp [printFields]
      rw [he, parseMembers]
      rw [parseStringBody_plain k.data _ _ (by simp) hk]
      have hsk1 : skipWs (':' ::
          (printLit v ++ ',' :: (printFields (kv2 :: fs'') ++ '\x7d' :: rest))) =
          ':' :: (printLit v ++ ',' :: (printFields (kv2 :: fs'') ++ '\x7d' :: rest)) :=
        skipWs_not_ws _ (by decide)
      have hsk2 : skipWs (',' :: (printFields (kv2 :: fs'') ++ '\x7d' :: rest)) =
          ',' :: (printFields (kv2 :: fs'') ++ '\x7d' :: rest) :=
        skipWs_not_ws _ (by decide)
      obtain ⟨t, ht⟩ := printFields_head kv2.1 kv2.2 fs''
      have hsk3 : skipWs (printFields (kv2 :: fs'') ++ '\x7d' :: rest) =
          printFields (kv2 :: fs'') ++ '\x7d' :: rest := by
        rw [ht, List.cons_append]
        exact skipWs_not_ws _ (by decide)
      have hrec : parseMembers pv g' (printFields (kv2 :: fs'') ++ '\x7d' :: rest) =
          some (interpFields (kv2 :: fs''), rest) := by
        apply ih g' rest (by simp) hval'
        simp at hlen ⊢
        omega
      simp only [hsk1, hsk2, hsk3,
        hpv v ',' (printFields (kv2 :: fs'') ++ '\x7d' :: rest) hv (Or.inl rfl), hrec]
      rfl

theorem printFields_length_ge (fs : List (String × FieldLit)) :
    fs.length ≤ (printFields fs).length := by
  induction fs with
  | nil => simp [printFields]
  | cons kv fs' ih =>
    obtain ⟨k, v⟩ := kv
    cases fs' with
    | nil => simp [printFields]
    | cons kv2 fs'' =>
      simp [printFields, List.length_append] at ih ⊢
      omega

/-- Print–parse roundtrip: a flat object line built from valid keys and field
    literals decodes (under `parse_float=str, parse_int=str`) to the object
    whose field values are the interpretation of those literals. -/
theorem pyLoads_printObjLine (fs : List (String × FieldLit)) (hval : validFields fs = true) :
    pyLoads (printObjLine fs) = .ok (.obj (interpFields fs)) := by
  cases fs with
  | nil => rfl
  | cons kv fs' =>
    obtain ⟨k, v⟩ := kv
    obtain ⟨t, ht⟩ := printFields_head k v fs'
    have hdata : (printObjLine ((k, v) :: fs')).data =
        '\x7b' :: (printFields ((k, v) :: fs') ++ ['\x7d']) := rfl
    rw [pyLoads, hdata, ht]
    have hdl : ('\x7b' :: ('"' :: t ++ ['\x7d'])).length + 1 = t.length + 3 + 1 := by
      simp [List.length_append]
    have hmem : parseMembers (fun cs2 => parseVal (t.length + 3) cs2) (t.length + 3 + 1)
        ('"' :: (t ++ ['\x7d'])) = some (interpFields ((k, v) :: fs'), []) := by
      have hlen : ((k, v) :: fs').length ≤ t.length + 3 + 1 := by
        have h1 := printFields_length_ge ((k, v) :: fs')
        rw [ht] at h1
        simp only [List.length_cons] at h1 ⊢
        omega
      have h2 := parseMembers_print (fun cs2 => parseVal (t.length + 3) cs2)
        (fun lit r rest2 hv hr => parseVal_printLit (t.length + 2) lit r rest2 hv hr)
        ((k, v) :: fs') (t.length + 3 + 1) [] (by simp) hval hlen
      rw [ht] at h2
      simpa using h2
    have hv1 : parseVal (t.length + 3 + 1) ('\x7b' :: ('"' :: t ++ ['\x7d'])) =
        (parseMembers (fun cs2 => parseVal (t.length + 3) cs2) (t.length + 3 + 1)
          ('"' :: (t ++ ['\x7d']))).map (fun p => (PVal.obj p.1, p.2)) := rfl
    rw [hdl, hv1, hmem]
    rfl

theorem numChar_plain (c : Char) (h : isNumChar c = true) : plainChar c = true := by
  rw [isNumChar] at h
  simp only [Bool.or_eq_true, decide_eq_true_eq] at h
  rw [plainChar]
  simp only [Bool.and_eq_true, decide_eq_true_eq]
  rcases h with ((((hd | rfl) | rfl) | rfl) | rfl) | rfl
  · rw [isDigit, Bool.and_eq_true] at hd
    simp only [decide_eq_true_eq] at hd
    refine ⟨⟨?_, ?_⟩, ?_⟩
    · have h48 : 48 ≤ c.toNat := hd.1
      omega
    · intro he
      rw [he] at hd
      exact absurd hd (by decide)
    · intro he
      rw [he] at hd
      exact absurd hd (by decide)
  all_goals exact ⟨⟨by decide, by decide⟩, by decide⟩

theorem interpFields_stringifyNums (fs : List (String × FieldLit)) :
    interpFields (stringifyNums fs) = interpFields fs := by
  induction fs with
  | nil => rfl
  | cons kv fs' ih =>
    obtain ⟨k, v⟩ := kv
    cases v <;> simp [stringifyNums, stringifyLit, interpFields, interpLit] at ih ⊢ <;>
      exact ih

theorem validFields_stringifyNums (fs : List (String × FieldLit))
    (h : validFields fs = true) : validFields (stringifyNums fs) = true := by
  induction fs with
  | nil => rfl
  | cons kv fs' ih =>
    obtain ⟨k, v⟩ := kv
    rw [validFields, List.all_cons, Bool.and_eq_true] at h
    obtain ⟨hkv, h'⟩ := h
    rw [Bool.and_eq_true] at hkv
    obtain ⟨hk, hv⟩ := hkv
    have hv' : validLit (stringifyLit v) = true := by
      cases v with
      | strLit s => exact hv
      | numLit s =>
        rw [validLit, Bool.and_eq_true, Bool.and_eq_true] at hv
        rw [stringifyLit, validLit]
        rw [List.all_eq_true] at hv ⊢
        · intro c hc
          exact numChar_plain c (hv.1.2 c hc)
    have hcons : stringifyNums ((k, v) :: fs') = (k, stringifyLit v) :: stringifyNums fs' := rfl
    rw [hcons, validFields, List.all_cons]
    simp only [Bool.and_eq_true]
    refine ⟨⟨hk, hv'⟩, ?_⟩
    have h2 := ih h'
    rw [validFields] at h2
    exact h2

/-- C9: numeric JSON literals are scanned as text (the `parse_float=str`,
    `parse_int=str` hooks), so an event line in which a field is an unquoted
    numeral decodes to the same Python data — and transforms to the same
    record, in both variants — as the line with that numeral quoted as a JSON
    string of the same digits. -/
theorem C9_numeric_literals_as_text (fs : List (String × FieldLit))
    (hval : validFields fs = true) :
    pyLoads (printObjLine fs) = pyLoads (printObjLine (stringifyNums fs)) ∧
    PyAvro.transform_record (printObjLine fs) =
      PyAvro.transform_record (printObjLine (stringifyNums fs)) ∧
    FastAvro.transform_record (printObjLine fs) =
      FastAvro.transform_record (printObjLine (stringifyNums fs)) := by
  have h1 := pyLoads_printObjLine fs hval
  have h2 := pyLoads_printObjLine (stringifyNums fs) (validFields_stringifyNums fs hval)
  rw [interpFields_stringifyNums] at h2
  refine ⟨by rw [h1, h2], ?_, ?_⟩
  · simp only [PyAvro.transform_record, h1, h2]
  · simp only [FastAvro.transform_record, h1, h2]

theorem C9_numeric_literals_as_text_witness :
    PyAvro.transform_record (printObjLine
      [("eventType", .strLit "checkout"), ("eventId", .strLit "e-1"),
       ("timestamp", .strLit "2023-01-25T09:29:13"), ("userId", .strLit "u-1"),
       ("itemsInCart", .numLit "3"), ("totalValue", .numLit "19.995")]) =
    PyAvro.transform_record (printObjLine (stringifyNums
      [("eventType", .strLit "checkout"), ("eventId", .strLit "e-1"),
       ("timestamp", .strLit "2023-01-25T09:29:13"), ("userId", .strLit "u-1"),
       ("itemsInCart", .numLit "3"), ("totalValue", .numLit "19.995")])) :=
  (C9_numeric_literals_as_text
    [("eventType", .strLit "checkout"), ("eventId", .strLit "e-1"),
     ("timestamp", .strLit "2023-01-25T09:29:13"), ("userId", .strLit "u-1"),
     ("itemsInCart", .numLit "3"), ("totalValue", .numLit "19.995")] (by rfl)).2.1
